import Mathlib

/-!
Verification development for the Track Reconciliation & Persistence Engine
of the desktop-soundcloud repository.

The Rust sources under src-tauri/src are shallowly embedded:
pure decision logic (discogs.rs, musicbrainz.rs) becomes Lean functions
over a JSON value model; the SQLite-backed store (library/mod.rs) becomes
explicit state passing over a Store structure whose tables are association
lists keyed by track id; the datetime clock is a logical Nat counter;
f32/f64 scores and confidences are modeled as rationals.
-/

namespace SoundcloudWrapper

/-- Model of serde_json::Value.  Numbers are modeled as rationals (the code
only ever reads them through as_f64 / as_u64 / as_i64). -/
inductive Json where
  | null
  | bool (b : Bool)
  | num (q : ℚ)
  | str (s : String)
  | arr (items : List Json)
  | obj (fields : List (String × Json))
deriving Inhabited

/-- Value::get on an object (map lookup by key; objects built by the code
have distinct keys). -/
def Json.get : Json → String → Option Json
  | .obj fields, key => go fields key
  | _, _ => none
where go : List (String × Json) → String → Option Json
  | [], _ => none
  | (k, v) :: rest, key => if k = key then some v else go rest key

/-- Value::as_f64. -/
def Json.asF64 : Json → Option ℚ
  | .num q => some q
  | _ => none

/-- Value::as_array. -/
def Json.asArray : Json → Option (List Json)
  | .arr items => some items
  | _ => none

/-- Value::as_str. -/
def Json.asStr : Json → Option String
  | .str s => some s
  | _ => none

/-- library/mod.rs extract_release_id: first of the id, release_id and
master_id fields; a string is taken as is, an integral number is printed
(as_u64 first, then as_i64; both print the same digits for nonnegative
values, so an integral rational prints as its numerator). -/
def extract_release_id (value : Json) : Option String :=
  let idValue := ((value.get "id").or (value.get "release_id")).or (value.get "master_id")
  match idValue with
  | some (.str id) => some id
  | some (.num n) => if n.den = 1 then some (toString n.num) else none
  | _ => none

/-! Stable sorting.  Rust slice::sort_by is a stable sort; it is modeled by
insertion sort, which is stable for the same comparator discipline: an
element is inserted before the first element le-greater-or-equal to it. -/

/-- Insert x into a sorted list, before the first y with le x y. -/
def insertSorted (le : α → α → Bool) (x : α) : List α → List α
  | [] => [x]
  | y :: ys => if le x y then x :: y :: ys else y :: insertSorted le x ys

/-- Stable sort used to model Rust sort_by: ascending with respect to le. -/
def stableSort (le : α → α → Bool) : List α → List α
  | [] => []
  | x :: xs => insertSorted le x (stableSort le xs)

theorem mem_insertSorted (le : α → α → Bool) (x b : α) (l : List α) :
    b ∈ insertSorted le x l ↔ b = x ∨ b ∈ l := by
  induction l with
  | nil => simp [insertSorted]
  | cons y ys ih =>
    by_cases hxy : le x y = true
    · simp [insertSorted, hxy]
    · simp only [insertSorted, hxy, if_neg, Bool.not_eq_true, List.mem_cons, ih]
      tauto

theorem insertSorted_pairwise (le : α → α → Bool)
    (htot : ∀ a b, le a b = true ∨ le b a = true)
    (htrans : ∀ a b c, le a b = true → le b c = true → le a c = true)
    (x : α) (l : List α) (hl : l.Pairwise (fun a b => le a b = true)) :
    (insertSorted le x l).Pairwise (fun a b => le a b = true) := by
  induction l with
  | nil => simp [insertSorted]
  | cons y ys ih =>
    rcases List.pairwise_cons.mp hl with ⟨hy, hys⟩
    by_cases hxy : le x y = true
    · simp only [insertSorted, hxy, if_pos]
      refine List.pairwise_cons.mpr ⟨?_, hl⟩
      intro b hb
      rcases List.mem_cons.mp hb with rfl | hb
      · exact hxy
      · exact htrans x y b hxy (hy _ hb)
    · simp only [insertSorted, hxy, if_neg, Bool.not_eq_true]
      refine List.pairwise_cons.mpr ⟨?_, ih hys⟩
      intro b hb
      have hyx : le y x = true := (htot x y).resolve_left hxy
      rcases (mem_insertSorted le x b ys).mp hb with rfl | hmem
      · exact hyx
      · exact hy _ hmem

theorem stableSort_pairwise (le : α → α → Bool)
    (htot : ∀ a b, le a b = true ∨ le b a = true)
    (htrans : ∀ a b c, le a b = true → le b c = true → le a c = true)
    (l : List α) :
    (stableSort le l).Pairwise (fun a b => le a b = true) := by
  induction l with
  | nil => simp [stableSort]
  | cons x xs ih => exact insertSorted_pairwise le htot htrans x _ ih

theorem insertSorted_of_head_le (le : α → α → Bool) (x : α) (l : List α)
    (h : ∀ y ∈ l.head?, le x y = true) :
    insertSorted le x l = x :: l := by
  cases l with
  | nil => rfl
  | cons y ys => simp only [insertSorted, h y rfl, if_pos]

/-- Sorting a list that is already sorted (consecutively le-related) is the
identity; this lets claims quantify over pre-sorted inputs. -/
theorem stableSort_of_pairwise (le : α → α → Bool) (l : List α)
    (hl : l.Pairwise (fun a b => le a b = true)) :
    stableSort le l = l := by
  induction l with
  | nil => rfl
  | cons x xs ih =>
    rcases List.pairwise_cons.mp hl with ⟨hx, hxs⟩
    rw [stableSort, ih hxs]
    exact insertSorted_of_head_le le x xs (by
      intro y hy
      exact hx y (List.mem_of_mem_head? hy))

/-! Lookup verdicts shared by the two catalog clients. -/

/-- The Success / Ambiguous outcome of a lookup (LookupResult in both
discogs.rs and musicbrainz.rs); failures are carried by Except String,
merging the Message/Error variants of LookupFailure exactly as
into_message does. -/
inductive LookupResult where
  | success (release : Json) (confidence : ℚ)
  | ambiguous (candidates : List Json)

namespace Musicbrainz

/-- musicbrainz.rs MAX_ATTEMPTS. -/
def MAX_ATTEMPTS : Nat := 3

/-- Score of one release element as read by interpret_lookup (as_f64 with
0.0 fallback). -/
def scoreOf (release : Json) : ℚ :=
  ((release.get "score").bind Json.asF64).getD 0

/-- musicbrainz.rs interpret_lookup (lines 279-335): pull the releases
array, score-sort it descending (stable), bump a nonpositive best score to
the 100 ceiling, then decide Success / Ambiguous by the
single-candidate, at-least-95 and at-least-85-with-margin-10 rules. -/
def interpret_lookup (body : Json) : Except String LookupResult :=
  match (body.get "releases").bind Json.asArray with
  | none => .error "invalid response payload"
  | some releases =>
    let scored : List (ℚ × Json) := releases.map (fun release => (scoreOf release, release))
    match stableSort (fun a b => decide (b.1 ≤ a.1)) scored with
    | [] => .error "MusicBrainz returned no releases"
    | (bs, best_release) :: rest =>
      let sortedReleases : List Json := ((bs, best_release) :: rest).map Prod.snd
      let best_score : ℚ := if bs ≤ 0 then 100 else bs
      let second_score : ℚ :=
        ((sortedReleases[1]?).bind (fun release => (release.get "score").bind Json.asF64)).getD 0
      if sortedReleases.length = 1 ∨ 95 ≤ best_score ∨
          (85 ≤ best_score ∧ 10 ≤ best_score - second_score) then
        .ok (.success best_release best_score)
      else
        .ok (.ambiguous (sortedReleases.take 5))

/-- One HTTP answer of the MusicBrainz search endpoint, as discriminated by
perform_lookup; body deserialization failure is its own case (it maps to a
LookupFailure::Error). -/
inductive MbResponse where
  | ok (body : Json)
  | badJson (message : String)
  | rateLimited (retryAfter : Option Nat)
  | unauthorized
  | notFound
  | otherStatus (text : String)
  | transport (message : String)

/-- Observable trace of one perform_lookup run: final verdict, number of
search requests issued, and the seconds slept on the rate-limit path. -/
structure LookupTrace where
  result : Except String LookupResult
  attempts : Nat
  sleeps : List Nat

/-- musicbrainz.rs perform_lookup retry loop (lines 214-277), driven by a
response oracle giving the answer to each successive request.  Only the
429/503 arm loops: it sleeps Retry-After seconds (5 when absent or
unparsable) and retries while fewer than MAX_ATTEMPTS attempts were made;
every other arm returns at once. -/
def lookupGo (responses : Nat → MbResponse) (attempts : Nat) (sleeps : List Nat) :
    LookupTrace :=
  let attempt := attempts + 1
  match responses attempts with
  | .ok body => ⟨interpret_lookup body, attempt, sleeps⟩
  | .badJson message => ⟨.error ("failed to parse MusicBrainz response: " ++ message), attempt, sleeps⟩
  | .rateLimited retryAfter =>
    let delay := retryAfter.getD 5
    if h : MAX_ATTEMPTS ≤ attempt then
      ⟨.error "rate limited by MusicBrainz", attempt, sleeps ++ [delay]⟩
    else
      lookupGo responses attempt (sleeps ++ [delay])
  | .unauthorized => ⟨.error "unauthorized MusicBrainz request", attempt, sleeps⟩
  | .notFound => ⟨.error "no releases found for track", attempt, sleeps⟩
  | .otherStatus text => ⟨.error ("unexpected MusicBrainz status: " ++ text), attempt, sleeps⟩
  | .transport message => ⟨.error ("request failed: " ++ message), attempt, sleeps⟩
termination_by MAX_ATTEMPTS - attempts
decreasing_by simp only [MAX_ATTEMPTS] at *; omega

/-- musicbrainz.rs perform_lookup, attempts starting at zero. -/
def perform_lookup (responses : Nat → MbResponse) : LookupTrace :=
  lookupGo responses 0 []

end Musicbrainz

namespace Discogs

/-- discogs.rs SearchResult (deserialized search hit). -/
structure SearchResult where
  id : Option Nat := none
  title : Option String := none
  result_type : Option String := none
  resource_url : Option String := none
  score : Option ℚ := none
  year : Option Nat := none
  country : Option String := none
  thumb : Option String := none
deriving Repr, DecidableEq

/-- Order on optional scores matching PartialOrd on Option of f32: absent
compares below every present score. -/
def optScoreLe (x y : Option ℚ) : Bool :=
  match x, y with
  | none, _ => true
  | some _, none => false
  | some a, some b => decide (a ≤ b)

/-- The json object built for one ambiguous candidate (discogs.rs lines
304-318); absent options serialize to null. -/
def candidateJson (result : SearchResult) : Json :=
  let optNum : Option Nat → Json := fun v =>
    match v with | some n => .num n | none => .null
  let optQ : Option ℚ → Json := fun v =>
    match v with | some q => .num q | none => .null
  let optStr : Option String → Json := fun v =>
    match v with | some s => .str s | none => .null
  .obj [("id", optNum result.id),
        ("title", optStr result.title),
        ("score", optQ result.score),
        ("year", optNum result.year),
        ("country", optStr result.country),
        ("resourceUrl", optStr result.resource_url),
        ("thumb", optStr result.thumb)]

/-- The structural-validity filter of discogs.rs perform_lookup: keep hits
whose type is release and that carry a resource_url. -/
def filterResults (results : List SearchResult) : List SearchResult :=
  results.filter (fun result =>
    result.result_type = some "release" && result.resource_url.isSome)

/-- The Success / Ambiguous outcome of the Discogs decision; on the
Success path the code fetches the full release document in a second
request, so the verdict carries the chosen top hit and the confidence,
with the fetched body abstracted (its transport failures are part of the
request model, not of the decision). -/
inductive Decision where
  | success (top : SearchResult) (confidence : ℚ)
  | ambiguous (candidates : List Json)

/-- discogs.rs perform_lookup decision logic (lines 246-321): filter to
structurally valid hits, fail on an empty list, sort descending by
optional score (stable), then accept exactly when there is a single hit or
the top score is at least 85 with a margin of at least 10 over the runner
up; anything else is Ambiguous with the top five candidates.  There is no
high-confidence shortcut and no score ceiling: confidence is the top score
with a 0 fallback. -/
def decide_results (body_results : List SearchResult) : Except String Decision :=
  let results := filterResults body_results
  if results.isEmpty then .error "no releases found"
  else
    let sorted := stableSort (fun a b => optScoreLe b.score a.score) results
    let top_score : ℚ := ((sorted.head?).bind SearchResult.score).getD 0
    let second_score : ℚ := ((sorted[1]?).bind SearchResult.score).getD 0
    if sorted.length = 1 ∨ (85 ≤ top_score ∧ 10 ≤ top_score - second_score) then
      match sorted.head? with
      | none => .error "no releases found"
      | some top =>
        let release_url := top.resource_url.getD
          (match top.id with
           | some id => "https://api.discogs.com/releases/" ++ toString id
           | none => "")
        if release_url = "" then .error "top result missing release URL"
        else .ok (.success top top_score)
    else
      .ok (.ambiguous ((sorted.take 5).map candidateJson))

/-- One HTTP answer of the Discogs search endpoint as discriminated by
perform_lookup: a deserialized hit list on 2xx, the displayed status text
otherwise (including 429 and 503), or a transport / body error. -/
inductive DgResponse where
  | ok (results : List SearchResult)
  | badJson (message : String)
  | status (text : String)
  | transport (message : String)

/-- Observable trace of one Discogs perform_lookup run. -/
structure DgLookupTrace where
  result : Except String Decision
  attempts : Nat

/-- discogs.rs perform_lookup (lines 205-321) is a single straight-line
request: there is no retry loop of any kind, so only the first oracle
answer is ever consumed and exactly one search request is issued; every
non-2xx status (429 and 503 included) returns the
search-returned-status failure at once. -/
def perform_lookup (responses : Nat → DgResponse) : DgLookupTrace :=
  match responses 0 with
  | .transport message => ⟨.error message, 1⟩
  | .status text => ⟨.error ("search returned status " ++ text), 1⟩
  | .badJson message => ⟨.error message, 1⟩
  | .ok results => ⟨decide_results results, 1⟩

end Discogs

/-! The relational store (library/mod.rs).  Tables are association lists
keyed by track id (SQLite rows have no observable order for keyed
tables); candidate tables are bags of rows.  The datetime clock is a
logical counter: every public store operation reads the current tick for
its datetime-now defaults and advances the clock once. -/

/-- Association-list lookup by key (WHERE id = k on a primary-keyed
table). -/
def aget (k : String) : List (String × α) → Option α
  | [] => none
  | (k1, v) :: rest => if k1 = k then some v else aget k rest

/-- INSERT ... ON CONFLICT(key) DO UPDATE: replace the row in place when
the key exists, append a fresh row otherwise; the update function sees the
old row when there is one. -/
def aupsert (k : String) (f : Option α → α) : List (String × α) → List (String × α)
  | [] => [(k, f none)]
  | (k1, v) :: rest =>
    if k1 = k then (k, f (some v)) :: rest else (k1, v) :: aupsert k f rest

/-- INSERT OR IGNORE: append a fresh row only when the key is absent. -/
def ainsertIgnore (k : String) (v : α) (l : List (String × α)) : List (String × α) :=
  if (aget k l).isSome then l else l ++ [(k, v)]

/-- UPDATE ... WHERE key: rewrite the row when present, no-op otherwise. -/
def aupdate (k : String) (f : α → α) : List (String × α) → List (String × α)
  | [] => []
  | (k1, v) :: rest =>
    if k1 = k then (k1, f v) :: rest else (k1, v) :: aupdate k f rest

/-- DELETE ... WHERE key. -/
def aremove (k : String) (l : List (String × α)) : List (String × α) :=
  l.filter (fun p => p.1 ≠ k)

/-- The tracks table row (library/mod.rs schema, lines 306-319). -/
structure TrackRow where
  title : Option String := none
  artist : Option String := none
  album : Option String := none
  discogs_payload : Option String := none
  discogs_release_id : Option String := none
  discogs_confidence : Option ℚ := none
  musicbrainz_payload : Option Json := none
  musicbrainz_release_id : Option String := none
  musicbrainz_confidence : Option ℚ := none
  created_at : Nat := 0
  updated_at : Nat := 0

/-- The DiscogsMatchStatus / MusicbrainzMatchStatus enums. -/
inductive MatchStatus where
  | success
  | ambiguous
  | error
deriving Repr, DecidableEq

/-- A discogs_matches / musicbrainz_matches row.  checked_at keeps the
caller-supplied value; none stands for the datetime-now default filled
by COALESCE. -/
structure MatchRow where
  release_id : Option String := none
  confidence : Option ℚ := none
  status : MatchStatus := .error
  query : Option String := none
  message : Option String := none
  checked_at : Option String := none

/-- A discogs_candidates / musicbrainz_candidates row; the serialized
payload string is kept as its Json value. -/
structure CandidateRow where
  match_id : String
  release_id : Option String := none
  score : Option ℚ := none
  raw_payload : Json := .null

/-- A soundcloud_sources row. -/
structure SourceRow where
  soundcloud_id : String
  permalink_url : Option String := none
  raw_payload : Json := .null
  fetched_at : Nat := 0

/-- A local_assets row. -/
structure AssetRow where
  location : String
  checksum : Option String := none
  available : Bool := true
  duration_ms : Option Int := none
  recorded_at : Nat := 0

/-- The whole database owned by LibraryStore, plus the logical clock. -/
structure Store where
  tracks : List (String × TrackRow) := []
  soundcloud_sources : List (String × SourceRow) := []
  rekordbox_sources : List (String × Json) := []
  local_assets : List (String × AssetRow) := []
  rekordbox_mappings : List (String × String) := []
  discogs_matches : List (String × MatchRow) := []
  discogs_candidates : List CandidateRow := []
  musicbrainz_matches : List (String × MatchRow) := []
  musicbrainz_candidates : List CandidateRow := []
  now : Nat := 0

/-- The fresh store produced by applying the migrations to an empty
database. -/
def emptyStore : Store := {}

/-- The TrackRecord input of upsert_track. -/
structure TrackRecord where
  track_id : String
  title : Option String := none
  artist : Option String := none
  album : Option String := none
  discogs_release_id : Option String := none
  discogs_confidence : Option ℚ := none
  musicbrainz_release_id : Option String := none
  musicbrainz_confidence : Option ℚ := none
  musicbrainz_payload : Option Json := none

/-- The DiscogsMatchRecord / MusicbrainzMatchRecord inputs of
record_discogs_match and record_musicbrainz_match, which are
field-for-field identical in the source. -/
structure CatalogMatchRecord where
  track_id : String
  release_id : Option String := none
  confidence : Option ℚ := none
  status : MatchStatus := .error
  query : Option String := none
  message : Option String := none
  checked_at : Option String := none

/-- The DiscogsCandidateRecord / MusicbrainzCandidateRecord inputs, also
field-for-field identical in the source. -/
structure CatalogCandidateRecord where
  match_id : String
  release_id : Option String := none
  score : Option ℚ := none
  raw_payload : Json := .null

/-- The SoundcloudSourceRecord input of link_soundcloud_source. -/
structure SoundcloudSourceRecord where
  track_id : String
  soundcloud_id : String
  permalink_url : Option String := none
  raw_payload : Json := .null

/-- A bare tracks row created by INSERT OR IGNORE INTO tracks (id). -/
def bareTrackRow (now : Nat) : TrackRow :=
  { created_at := now, updated_at := now }

/-- library/mod.rs ensure_track. -/
def Store.ensure_track (s : Store) (track_id : String) : Store :=
  { s with tracks := ainsertIgnore track_id (bareTrackRow s.now) s.tracks,
           now := s.now + 1 }

/-- library/mod.rs upsert_track (lines 475-531): insert-or-replace every
attribute column from the record, including absent ones; only the legacy
discogs_payload column and created_at are left untouched on conflict. -/
def Store.upsert_track (s : Store) (record : TrackRecord) : Store :=
  { s with
    tracks := aupsert record.track_id (fun old =>
      { title := record.title
        artist := record.artist
        album := record.album
        discogs_payload := (old.map (fun r => r.discogs_payload)).getD none
        discogs_release_id := record.discogs_release_id
        discogs_confidence := record.discogs_confidence
        musicbrainz_payload := record.musicbrainz_payload
        musicbrainz_release_id := record.musicbrainz_release_id
        musicbrainz_confidence := record.musicbrainz_confidence
        created_at := (old.map (fun r => r.created_at)).getD s.now
        updated_at := s.now }) s.tracks
    now := s.now + 1 }

/-- library/mod.rs link_soundcloud_source: ensure the track, then
insert-or-replace the soundcloud_sources row. -/
def Store.link_soundcloud_source (s : Store) (record : SoundcloudSourceRecord) : Store :=
  let s1 := s.ensure_track record.track_id
  { s1 with
    soundcloud_sources := aupsert record.track_id (fun _ =>
      { soundcloud_id := record.soundcloud_id
        permalink_url := record.permalink_url
        raw_payload := record.raw_payload
        fetched_at := s1.now }) s1.soundcloud_sources
    now := s1.now + 1 }

/-- library/mod.rs sync_soundcloud_track: upsert_track then
link_soundcloud_source. -/
def Store.sync_soundcloud_track (s : Store) (track : TrackRecord)
    (source : SoundcloudSourceRecord) : Store :=
  (s.upsert_track track).link_soundcloud_source source

/-- The MatchRow written by persist_discogs_match / persist_musicbrainz_match
for a given record (INSERT ... ON CONFLICT DO UPDATE writes every column,
so old content never survives). -/
def matchRowOf (record : CatalogMatchRecord) : MatchRow :=
  { release_id := record.release_id
    confidence := record.confidence
    status := record.status
    query := record.query
    message := record.message
    checked_at := record.checked_at }

/-- The discogs_candidates rows inserted by persist_discogs_match: the loop
skips candidates whose match_id differs from the record track id, and
inserts the rest under the record track id. -/
def newDiscogsCandidateRows (record : CatalogMatchRecord)
    (candidates : List CatalogCandidateRecord) : List CandidateRow :=
  (candidates.filter (fun c => c.match_id = record.track_id)).map (fun c =>
    { match_id := record.track_id
      release_id := c.release_id
      score := c.score
      raw_payload := c.raw_payload })

/-- The musicbrainz_candidates rows inserted by persist_musicbrainz_match:
every candidate is inserted, each under its own match_id field. -/
def newMusicbrainzCandidateRows (candidates : List CatalogCandidateRecord) :
    List CandidateRow :=
  candidates.map (fun c =>
    { match_id := c.match_id
      release_id := c.release_id
      score := c.score
      raw_payload := c.raw_payload })

/-- The five statements of persist_discogs_match (library/mod.rs lines
661-736), in program order, each as a state transformer on the
in-transaction snapshot: (1) ensure the tracks row, (2) insert-or-replace
the discogs_matches row, (3) propagate release id and confidence onto the
tracks row, (4) delete all prior candidates of this track, (5) insert the
new candidate rows. -/
def persistDiscogsSteps (record : CatalogMatchRecord)
    (candidates : List CatalogCandidateRecord) : List (Store → Store) :=
  [ fun s => { s with tracks := ainsertIgnore record.track_id (bareTrackRow s.now) s.tracks },
    fun s => { s with discogs_matches :=
                 aupsert record.track_id (fun _ => matchRowOf record) s.discogs_matches },
    fun s => { s with tracks := aupdate record.track_id (fun r =>
                 { r with discogs_release_id := record.release_id
                          discogs_confidence := record.confidence
                          updated_at := s.now }) s.tracks },
    fun s => { s with discogs_candidates :=
                 s.discogs_candidates.filter (fun c => c.match_id ≠ record.track_id) },
    fun s => { s with discogs_candidates :=
                 s.discogs_candidates ++ newDiscogsCandidateRows record candidates } ]

/-- The five statements of persist_musicbrainz_match (library/mod.rs lines
738-809); identical shape, but the candidate loop has no match_id filter
and inserts each candidate under its own match_id. -/
def persistMusicbrainzSteps (record : CatalogMatchRecord)
    (candidates : List CatalogCandidateRecord) : List (Store → Store) :=
  [ fun s => { s with tracks := ainsertIgnore record.track_id (bareTrackRow s.now) s.tracks },
    fun s => { s with musicbrainz_matches :=
                 aupsert record.track_id (fun _ => matchRowOf record) s.musicbrainz_matches },
    fun s => { s with tracks := aupdate record.track_id (fun r =>
                 { r with musicbrainz_release_id := record.release_id
                          musicbrainz_confidence := record.confidence
                          updated_at := s.now }) s.tracks },
    fun s => { s with musicbrainz_candidates :=
                 s.musicbrainz_candidates.filter (fun c => c.match_id ≠ record.track_id) },
    fun s => { s with musicbrainz_candidates :=
                 s.musicbrainz_candidates ++ newMusicbrainzCandidateRows candidates } ]

/-- Run a statement list in order on a snapshot. -/
def runSteps (steps : List (Store → Store)) (s : Store) : Store :=
  steps.foldl (fun t f => f t) s

/-- library/mod.rs record_discogs_match (lines 571-580): open a
transaction, run persist_discogs_match, commit. -/
def Store.record_discogs_match (s : Store) (record : CatalogMatchRecord)
    (candidates : List CatalogCandidateRecord) : Store :=
  { runSteps (persistDiscogsSteps record candidates) s with now := s.now + 1 }

/-- library/mod.rs record_musicbrainz_match (lines 582-591). -/
def Store.record_musicbrainz_match (s : Store) (record : CatalogMatchRecord)
    (candidates : List CatalogCandidateRecord) : Store :=
  { runSteps (persistMusicbrainzSteps record candidates) s with now := s.now + 1 }

/-- SQLite transaction semantics with an injected failure: when the
failing statement index lies inside the statement list the commit is never
reached, the transaction object is dropped and the database rolls back to
its pre-transaction state; otherwise all statements commit together.
record_discogs_match runs every one of the five statements on the
transaction object and commits only after the last, so this is the
observable behavior of the code under a mid-transaction failure. -/
def runTransaction (steps : List (Store → Store)) (failAt : Option Nat) (s : Store) : Store :=
  match failAt with
  | some k => if k < steps.length then s else runSteps steps s
  | none => runSteps steps s

/-- record_discogs_match under an injected statement failure. -/
def Store.record_discogs_match_faulty (s : Store) (record : CatalogMatchRecord)
    (candidates : List CatalogCandidateRecord) (failAt : Option Nat) : Store :=
  match failAt with
  | some k =>
    if k < (persistDiscogsSteps record candidates).length then s
    else s.record_discogs_match record candidates
  | none => s.record_discogs_match record candidates

/-- The discogs_candidates rows attached to one track. -/
def Store.discogsCandidatesFor (s : Store) (track_id : String) : List CandidateRow :=
  s.discogs_candidates.filter (fun c => c.match_id = track_id)

/-- The musicbrainz_candidates rows attached to one track. -/
def Store.musicbrainzCandidatesFor (s : Store) (track_id : String) : List CandidateRow :=
  s.musicbrainz_candidates.filter (fun c => c.match_id = track_id)

/-- library/mod.rs record_discogs_success (lines 811-842). -/
def Store.record_discogs_success (s : Store) (track_id query : String)
    (release : Json) (confidence : ℚ) : Store :=
  let release_id := extract_release_id release
  let score := ((release.get "score").bind Json.asF64).or (some confidence)
  let candidate : CatalogCandidateRecord :=
    { match_id := track_id, release_id := release_id, score := score,
      raw_payload := release }
  let record : CatalogMatchRecord :=
    { track_id := track_id, release_id := release_id,
      confidence := some confidence, status := .success,
      query := some query, message := none, checked_at := none }
  s.record_discogs_match record [candidate]

/-- library/mod.rs record_discogs_ambiguity (lines 844-878): candidates
with no extractable release id are dropped by the filter_map before
anything is stored. -/
def Store.record_discogs_ambiguity (s : Store) (track_id query : String)
    (candidates : List Json) : Store :=
  let candidate_records := candidates.filterMap (fun candidate =>
    (extract_release_id candidate).map (fun release_id =>
      ({ match_id := track_id, release_id := some release_id,
         score := (candidate.get "score").bind Json.asF64,
         raw_payload := candidate } : CatalogCandidateRecord)))
  let record : CatalogMatchRecord :=
    { track_id := track_id, release_id := none, confidence := none,
      status := .ambiguous, query := some query, message := none,
      checked_at := none }
  s.record_discogs_match record candidate_records

/-- library/mod.rs record_discogs_failure (lines 880-897). -/
def Store.record_discogs_failure (s : Store) (track_id query reason : String) : Store :=
  let record : CatalogMatchRecord :=
    { track_id := track_id, release_id := none, confidence := none,
      status := .error, query := some query, message := some reason,
      checked_at := none }
  s.record_discogs_match record []

/-- library/mod.rs record_musicbrainz_success (lines 899-924): unlike the
discogs variant, the candidate score is the confidence itself. -/
def Store.record_musicbrainz_success (s : Store) (track_id query : String)
    (release : Json) (confidence : ℚ) : Store :=
  let release_id := extract_release_id release
  let candidate : CatalogCandidateRecord :=
    { match_id := track_id, release_id := release_id,
      score := some confidence, raw_payload := release }
  let record : CatalogMatchRecord :=
    { track_id := track_id, release_id := release_id,
      confidence := some confidence, status := .success,
      query := some query, message := none, checked_at := none }
  s.record_musicbrainz_match record [candidate]

/-- library/mod.rs record_musicbrainz_ambiguity (lines 926-960). -/
def Store.record_musicbrainz_ambiguity (s : Store) (track_id query : String)
    (candidates : List Json) : Store :=
  let candidate_records := candidates.filterMap (fun candidate =>
    (extract_release_id candidate).map (fun release_id =>
      ({ match_id := track_id, release_id := some release_id,
         score := (candidate.get "score").bind Json.asF64,
         raw_payload := candidate } : CatalogCandidateRecord)))
  let record : CatalogMatchRecord :=
    { track_id := track_id, release_id := none, confidence := none,
      status := .ambiguous, query := some query, message := none,
      checked_at := none }
  s.record_musicbrainz_match record candidate_records

/-- library/mod.rs record_musicbrainz_failure (lines 962-979). -/
def Store.record_musicbrainz_failure (s : Store) (track_id query reason : String) : Store :=
  let record : CatalogMatchRecord :=
    { track_id := track_id, release_id := none, confidence := none,
      status := .error, query := some query, message := some reason,
      checked_at := none }
  s.record_musicbrainz_match record []

/-! The rekordbox import sync (library/mod.rs sync_rekordbox_tracks,
lines 1023-1145). -/

/-- rekordbox.rs RekordboxTrack; the normalized PathBuf is kept as its
lossy string rendering, which is exactly what the sync consumes, and cue
points are kept as their serialized values. -/
structure RekordboxTrack where
  rekordbox_id : String
  track_reference : Option String := none
  title : Option String := none
  artist : Option String := none
  album : Option String := none
  location : Option String := none
  normalized_path : Option String := none
  checksum : Option String := none
  duration_ms : Option Nat := none
  available : Bool := true
  cues : List Json := []

/-- Json rendering of an optional string (absent serializes to null). -/
def optStrJson : Option String → Json
  | some s => .str s
  | none => .null

/-- The raw_payload document stored into rekordbox_sources for one
imported track (the json! block at lines 1106-1119). -/
def rekordboxRawPayload (track : RekordboxTrack) (track_id : String) : Json :=
  .obj [("rekordbox_id", .str track.rekordbox_id),
        ("track_reference", optStrJson track.track_reference),
        ("track_id", .str track_id),
        ("title", optStrJson track.title),
        ("artist", optStrJson track.artist),
        ("album", optStrJson track.album),
        ("location", optStrJson track.location),
        ("normalized_path", optStrJson track.normalized_path),
        ("checksum", optStrJson track.checksum),
        ("duration_ms", match track.duration_ms with
                        | some d => .num d
                        | none => .null),
        ("available", .bool track.available),
        ("cues", .arr track.cues)]

/-- The per-track statements of the sync loop body: upsert the tracks row
(title, artist and album only; catalog columns are preserved on
conflict), upsert the rekordbox_mappings row, upsert the local_assets row
when a location resolves (direct location first, then normalized path),
and upsert the rekordbox_sources payload. -/
def rekordboxApplyTrack (now : Nat) (track : RekordboxTrack) (track_id : String)
    (s : Store) : Store :=
  let s := { s with tracks := aupsert track_id (fun old =>
    match old with
    | none => { title := track.title, artist := track.artist, album := track.album,
                created_at := now, updated_at := now }
    | some r => { r with title := track.title, artist := track.artist,
                         album := track.album, updated_at := now }) s.tracks }
  let s := { s with rekordbox_mappings :=
               aupsert track.rekordbox_id (fun _ => track_id) s.rekordbox_mappings }
  let s :=
    match track.location.or track.normalized_path with
    | some location =>
      { s with local_assets := aupsert track_id (fun _ =>
          { location := location, checksum := track.checksum,
            available := track.available,
            duration_ms := track.duration_ms.map (fun d => (d : Int)),
            recorded_at := now }) s.local_assets }
    | none => s
  { s with rekordbox_sources :=
             aupsert track_id (fun _ => rekordboxRawPayload track track_id) s.rekordbox_sources }

/-- The track id chosen for one incoming rekordbox track: the previously
mapped id when the external id was seen before, a fresh synthetic
rekordbox-prefixed id otherwise. -/
def rekordboxTrackId (existing_map : List (String × String)) (track : RekordboxTrack) : String :=
  (aget track.rekordbox_id existing_map).getD ("rekordbox:" ++ track.rekordbox_id)

/-- The main loop of sync_rekordbox_tracks: walks the incoming list,
carrying the in-memory existing map (extended with each processed id) and
the stale map (shrunk by each processed id); returns the written store and
the final stale map. -/
def rekordboxSyncLoop (now : Nat) (s : Store)
    (existing_map stale_map : List (String × String)) :
    List RekordboxTrack → Store × List (String × String)
  | [] => (s, stale_map)
  | track :: rest =>
    let track_id := rekordboxTrackId existing_map track
    let existing_map2 := aupsert track.rekordbox_id (fun _ => track_id) existing_map
    let stale_map2 := aremove track.rekordbox_id stale_map
    let s2 := rekordboxApplyTrack now track track_id s
    rekordboxSyncLoop now s2 existing_map2 stale_map2 rest

/-- DELETE FROM tracks WHERE id with PRAGMA foreign_keys ON: the ON DELETE
CASCADE clauses remove every dependent soundcloud_sources,
rekordbox_sources, local_assets, rekordbox_mappings, discogs_matches and
musicbrainz_matches row, and through the match rows every candidate
row. -/
def Store.delete_track_cascade (s : Store) (track_id : String) : Store :=
  { s with
    tracks := aremove track_id s.tracks
    soundcloud_sources := aremove track_id s.soundcloud_sources
    rekordbox_sources := aremove track_id s.rekordbox_sources
    local_assets := aremove track_id s.local_assets
    rekordbox_mappings := s.rekordbox_mappings.filter (fun p => p.2 ≠ track_id)
    discogs_matches := aremove track_id s.discogs_matches
    discogs_candidates := s.discogs_candidates.filter (fun c => c.match_id ≠ track_id)
    musicbrainz_matches := aremove track_id s.musicbrainz_matches
    musicbrainz_candidates := s.musicbrainz_candidates.filter (fun c => c.match_id ≠ track_id) }

/-- library/mod.rs sync_rekordbox_tracks (lines 1023-1145): one
transaction that loads the mapping table, processes every incoming track,
then deletes the track of every mapping not seen in this import. -/
def Store.sync_rekordbox_tracks (s : Store) (tracks : List RekordboxTrack) : Store :=
  let (s2, stale) :=
    rekordboxSyncLoop s.now s s.rekordbox_mappings s.rekordbox_mappings tracks
  let s3 := stale.foldl (fun t p => t.delete_track_cascade p.2) s2
  { s3 with now := s.now + 1 }

/-! Status listing (library/mod.rs list_library_status, lines
1166-1290). -/

/-- The StatusFilter input. -/
structure StatusFilter where
  missing_assets_only : Bool := false
  unresolved_discogs_only : Bool := false
  liked_only : Bool := false
  rekordbox_only : Bool := false
  limit : Option Nat := none
  offset : Option Nat := none

/-- The liked predicate: json_extract of likedAt from the soundcloud
source payload is non-NULL (a JSON null extracts to SQL NULL). -/
def likedOf (source : Option SourceRow) : Bool :=
  match source with
  | some src =>
    match src.raw_payload.get "likedAt" with
    | some .null => false
    | some _ => true
    | none => false
  | none => false

/-- Does one track satisfy the conjunction of the enabled filter
conditions (the WHERE clause built at lines 1179-1198)? -/
def statusWhere (s : Store) (filter : StatusFilter) (p : String × TrackRow) : Bool :=
  let ss := aget p.1 s.soundcloud_sources
  let dm := aget p.1 s.discogs_matches
  let la := aget p.1 s.local_assets
  let rb := aget p.1 s.rekordbox_sources
  (!filter.missing_assets_only ||
    (match la with
     | none => true
     | some asset => !asset.available)) &&
  (!filter.unresolved_discogs_only ||
    (match dm with
     | none => true
     | some m => !(m.status = MatchStatus.success) || m.release_id.isNone)) &&
  (!filter.liked_only || likedOf ss) &&
  (!filter.rekordbox_only || rb.isSome)

/-- ORDER BY t.updated_at DESC, t.id ASC as a boolean order on joined
rows. -/
def statusLe (a b : String × TrackRow) : Bool :=
  if a.2.updated_at = b.2.updated_at then decide (a.1 ≤ b.1)
  else decide (b.2.updated_at < a.2.updated_at)

/-- The page returned by list_library_status; rows keep the joined track
id and tracks row, the projection into LibraryStatusRow display fields
being derived from them. -/
structure LibraryStatusPage where
  rows : List (String × TrackRow)
  total : Nat
  limit : Nat
  offset : Nat

/-- library/mod.rs list_library_status: clamp the requested limit into 1
to 500 with a 100 default, count the filtered rows for the total, order by
updated_at descending then id ascending, and slice with OFFSET then
LIMIT. -/
def Store.list_library_status (s : Store) (filter : StatusFilter) : LibraryStatusPage :=
  let DEFAULT_LIMIT : Nat := 100
  let MAX_LIMIT : Nat := 500
  let requested_limit := filter.limit.getD DEFAULT_LIMIT
  let limit := min (max requested_limit 1) MAX_LIMIT
  let offset_value := filter.offset.getD 0
  let matching := s.tracks.filter (statusWhere s filter)
  let total := matching.length
  let ordered := stableSort statusLe matching
  let rows := (ordered.drop offset_value).take limit
  { rows := rows, total := total, limit := limit, offset := offset_value }

/-! Association-list lemmas. -/

theorem aget_aupsert_self (k : String) (f : Option α → α) (l : List (String × α)) :
    aget k (aupsert k f l) = some (f (aget k l)) := by
  induction l with
  | nil => simp [aget, aupsert]
  | cons p rest ih =>
    by_cases h : p.1 = k
    · simp [aget, aupsert, h]
    · simp [aget, aupsert, h, ih]

theorem aget_aupsert_ne (k k1 : String) (hne : k1 ≠ k) (f : Option α → α)
    (l : List (String × α)) : aget k1 (aupsert k f l) = aget k1 l := by
  induction l with
  | nil => simp [aget, aupsert, Ne.symm hne]
  | cons p rest ih =>
    obtain ⟨a, v⟩ := p
    by_cases h : a = k
    · subst h
      simp [aget, aupsert, Ne.symm hne]
    · simp [aget, aupsert, h, ih]

theorem aget_append_single_self (k : String) (v : α) (l : List (String × α))
    (hg : aget k l = none) : aget k (l ++ [(k, v)]) = some v := by
  induction l with
  | nil => simp [aget]
  | cons p rest ih =>
    obtain ⟨a, w⟩ := p
    by_cases h : a = k
    · simp [aget, h] at hg
    · simp [aget, h] at hg ⊢
      exact ih hg

theorem aget_append_single_ne (k k1 : String) (hne : k1 ≠ k) (v : α)
    (l : List (String × α)) : aget k1 (l ++ [(k, v)]) = aget k1 l := by
  induction l with
  | nil => simp [aget, Ne.symm hne]
  | cons p rest ih =>
    obtain ⟨a, w⟩ := p
    by_cases h : a = k1 <;> simp [aget, h, ih]

theorem aget_ainsertIgnore_self (k : String) (v : α) (l : List (String × α)) :
    aget k (ainsertIgnore k v l) = some ((aget k l).getD v) := by
  unfold ainsertIgnore
  cases hg : aget k l with
  | some w => simp [hg]
  | none => simp [hg, aget_append_single_self k v l hg]

theorem aget_ainsertIgnore_ne (k k1 : String) (hne : k1 ≠ k) (v : α)
    (l : List (String × α)) : aget k1 (ainsertIgnore k v l) = aget k1 l := by
  unfold ainsertIgnore
  by_cases hg : (aget k l).isSome <;>
    simp [hg, aget_append_single_ne k k1 hne v l]

theorem aget_aupdate_self (k : String) (f : α → α) (l : List (String × α)) :
    aget k (aupdate k f l) = (aget k l).map f := by
  induction l with
  | nil => simp [aget, aupdate]
  | cons p rest ih =>
    obtain ⟨a, v⟩ := p
    by_cases h : a = k
    · simp [aget, aupdate, h]
    · simp [aget, aupdate, h, ih]

theorem aget_aupdate_ne (k k1 : String) (hne : k1 ≠ k) (f : α → α)
    (l : List (String × α)) : aget k1 (aupdate k f l) = aget k1 l := by
  induction l with
  | nil => simp [aupdate]
  | cons p rest ih =>
    obtain ⟨a, v⟩ := p
    by_cases h : a = k
    · subst h
      simp [aget, aupdate, Ne.symm hne]
    · simp [aget, aupdate, h, ih]

theorem aget_aremove_self (k : String) (l : List (String × α)) :
    aget k (aremove k l) = none := by
  induction l with
  | nil => simp [aget, aremove]
  | cons p rest ih =>
    obtain ⟨a, v⟩ := p
    by_cases h : a = k
    · simpa [aremove, h] using ih
    · simpa [aremove, aget, h] using ih

theorem aget_aremove_ne (k k1 : String) (hne : k1 ≠ k) (l : List (String × α)) :
    aget k1 (aremove k l) = aget k1 l := by
  induction l with
  | nil => simp [aremove]
  | cons p rest ih =>
    obtain ⟨a, v⟩ := p
    by_cases h : a = k
    · subst h
      simpa [aremove, aget, Ne.symm hne] using ih
    · by_cases h1 : a = k1
      · subst h1
        simp [aremove, aget, hne]
      · simp [aremove, aget, h, h1]
        simpa [aremove] using ih

theorem aget_eq_none_iff (k : String) (l : List (String × α)) :
    aget k l = none ↔ k ∉ l.map Prod.fst := by
  induction l with
  | nil => simp [aget]
  | cons p rest ih =>
    obtain ⟨a, v⟩ := p
    by_cases h : a = k
    · simp [aget, h]
    · simp [aget, h, ih, Ne.symm h]

theorem aget_isSome_iff (k : String) (l : List (String × α)) :
    (aget k l).isSome = true ↔ k ∈ l.map Prod.fst := by
  rw [← Decidable.not_iff_not, ← aget_eq_none_iff]
  cases aget k l <;> simp

theorem aupsert_map_fst (k : String) (f : Option α → α) (l : List (String × α)) :
    (aupsert k f l).map Prod.fst =
      if (aget k l).isSome then l.map Prod.fst else l.map Prod.fst ++ [k] := by
  induction l with
  | nil => simp [aget, aupsert]
  | cons p rest ih =>
    obtain ⟨a, v⟩ := p
    by_cases h : a = k
    · subst h
      simp [aget, aupsert]
    · simp only [aupsert, h, if_false, List.map_cons, ih, aget, if_neg h]
      by_cases hs : (aget k rest).isSome <;> simp [hs]

theorem aupsert_eq_self (k : String) (f : Option α → α) (l : List (String × α))
    (v : α) (hv : aget k l = some v) (hf : f (some v) = v) :
    aupsert k f l = l := by
  induction l with
  | nil => simp [aget] at hv
  | cons p rest ih =>
    obtain ⟨a, w⟩ := p
    by_cases h : a = k
    · subst h
      simp [aget] at hv
      subst hv
      simp [aupsert, hf]
    · simp [aget, h] at hv
      simp [aupsert, h, ih hv]

/-! What record_discogs_match / record_musicbrainz_match do to each
table. -/

theorem record_discogs_match_matches (s : Store) (r : CatalogMatchRecord)
    (cs : List CatalogCandidateRecord) :
    (s.record_discogs_match r cs).discogs_matches =
      aupsert r.track_id (fun _ => matchRowOf r) s.discogs_matches := rfl

theorem record_discogs_match_candidates (s : Store) (r : CatalogMatchRecord)
    (cs : List CatalogCandidateRecord) :
    (s.record_discogs_match r cs).discogs_candidates =
      s.discogs_candidates.filter (fun c => c.match_id ≠ r.track_id) ++
        newDiscogsCandidateRows r cs := rfl

theorem record_musicbrainz_match_matches (s : Store) (r : CatalogMatchRecord)
    (cs : List CatalogCandidateRecord) :
    (s.record_musicbrainz_match r cs).musicbrainz_matches =
      aupsert r.track_id (fun _ => matchRowOf r) s.musicbrainz_matches := rfl

theorem record_musicbrainz_match_candidates (s : Store) (r : CatalogMatchRecord)
    (cs : List CatalogCandidateRecord) :
    (s.record_musicbrainz_match r cs).musicbrainz_candidates =
      s.musicbrainz_candidates.filter (fun c => c.match_id ≠ r.track_id) ++
        newMusicbrainzCandidateRows cs := rfl

theorem filter_ne_then_eq (tid : String) (l : List CandidateRow) :
    (l.filter (fun c => c.match_id ≠ tid)).filter (fun c => c.match_id = tid) = [] := by
  induction l with
  | nil => rfl
  | cons c rest ih =>
    by_cases h : c.match_id = tid <;> simp [h, ih]

theorem discogsCandidatesFor_record (s : Store) (r : CatalogMatchRecord)
    (cs : List CatalogCandidateRecord) :
    (s.record_discogs_match r cs).discogsCandidatesFor r.track_id =
      newDiscogsCandidateRows r cs := by
  unfold Store.discogsCandidatesFor
  rw [record_discogs_match_candidates, List.filter_append,
    filter_ne_then_eq r.track_id s.discogs_candidates, List.nil_append]
  rw [List.filter_eq_self]
  intro c hc
  unfold newDiscogsCandidateRows at hc
  rcases List.mem_map.mp hc with ⟨c0, _, rfl⟩
  simp

theorem musicbrainzCandidatesFor_record (s : Store) (r : CatalogMatchRecord)
    (cs : List CatalogCandidateRecord) :
    (s.record_musicbrainz_match r cs).musicbrainzCandidatesFor r.track_id =
      (newMusicbrainzCandidateRows cs).filter (fun c => c.match_id = r.track_id) := by
  unfold Store.musicbrainzCandidatesFor
  rw [record_musicbrainz_match_candidates, List.filter_append,
    filter_ne_then_eq r.track_id s.musicbrainz_candidates, List.nil_append]

theorem matches_after_record_discogs (s : Store) (r : CatalogMatchRecord)
    (cs : List CatalogCandidateRecord) :
    aget r.track_id (s.record_discogs_match r cs).discogs_matches = some (matchRowOf r) := by
  rw [record_discogs_match_matches, aget_aupsert_self]

theorem matches_after_record_musicbrainz (s : Store) (r : CatalogMatchRecord)
    (cs : List CatalogCandidateRecord) :
    aget r.track_id (s.record_musicbrainz_match r cs).musicbrainz_matches =
      some (matchRowOf r) := by
  rw [record_musicbrainz_match_matches, aget_aupsert_self]

/-- record_musicbrainz_match under an injected statement failure, with the
same transaction semantics as the discogs variant. -/
def Store.record_musicbrainz_match_faulty (s : Store) (record : CatalogMatchRecord)
    (candidates : List CatalogCandidateRecord) (failAt : Option Nat) : Store :=
  match failAt with
  | some k =>
    if k < (persistMusicbrainzSteps record candidates).length then s
    else s.record_musicbrainz_match record candidates
  | none => s.record_musicbrainz_match record candidates

/-- The TrackRecord built by the liked-track and playlist ingestion paths
(lib.rs lines 671-681 and 718-728): album and every denormalized catalog
summary field are always passed as absent. -/
def likeIngestTrackRecord (track_id : String) (title artist : Option String) : TrackRecord :=
  { track_id := track_id, title := title, artist := artist, album := none,
    discogs_release_id := none, discogs_confidence := none,
    musicbrainz_release_id := none, musicbrainz_confidence := none,
    musicbrainz_payload := none }

/-- C1 (amended).  For every call to the record wrappers the stored
CatalogMatch row satisfies: the success wrappers store status success with
confidence present and release_id equal to the id extracted from the
release payload, hence absent exactly when no id is extractable; the
ambiguity wrappers store status ambiguous with release_id and confidence
both absent; the failure wrappers store status error with zero candidate
rows for that track and catalog; and for record_match itself every stored
candidate row for that track comes from the candidate list passed in
(record_match stores the given record without validating the
status-dependent field shape). -/
theorem claim_C1_match_invariants (s : Store) (tid q reason : String) (rel : Json)
    (conf : ℚ) (cands : List Json) (r : CatalogMatchRecord)
    (crs : List CatalogCandidateRecord) :
    (aget tid (s.record_discogs_success tid q rel conf).discogs_matches =
      some { release_id := extract_release_id rel, confidence := some conf,
             status := .success, query := some q, message := none, checked_at := none }) ∧
    (aget tid (s.record_musicbrainz_success tid q rel conf).musicbrainz_matches =
      some { release_id := extract_release_id rel, confidence := some conf,
             status := .success, query := some q, message := none, checked_at := none }) ∧
    (aget tid (s.record_discogs_ambiguity tid q cands).discogs_matches =
      some { release_id := none, confidence := none, status := .ambiguous,
             query := some q, message := none, checked_at := none }) ∧
    (aget tid (s.record_musicbrainz_ambiguity tid q cands).musicbrainz_matches =
      some { release_id := none, confidence := none, status := .ambiguous,
             query := some q, message := none, checked_at := none }) ∧
    (aget tid (s.record_discogs_failure tid q reason).discogs_matches =
      some { release_id := none, confidence := none, status := .error,
             query := some q, message := some reason, checked_at := none }) ∧
    ((s.record_discogs_failure tid q reason).discogsCandidatesFor tid = []) ∧
    (aget tid (s.record_musicbrainz_failure tid q reason).musicbrainz_matches =
      some { release_id := none, confidence := none, status := .error,
             query := some q, message := some reason, checked_at := none }) ∧
    ((s.record_musicbrainz_failure tid q reason).musicbrainzCandidatesFor tid = []) ∧
    (∀ c ∈ (s.record_discogs_match r crs).discogsCandidatesFor r.track_id,
      ∃ c0 ∈ crs, c.release_id = c0.release_id ∧ c.score = c0.score ∧
        c.raw_payload = c0.raw_payload) ∧
    (∀ c ∈ (s.record_musicbrainz_match r crs).musicbrainzCandidatesFor r.track_id,
      ∃ c0 ∈ crs, c.release_id = c0.release_id ∧ c.score = c0.score ∧
        c.raw_payload = c0.raw_payload) := by
  refine ⟨?_, ?_, ?_, ?_, ?_, ?_, ?_, ?_, ?_, ?_⟩
  · simp only [Store.record_discogs_success, record_discogs_match_matches,
      aget_aupsert_self, matchRowOf]
  · simp only [Store.record_musicbrainz_success, record_musicbrainz_match_matches,
      aget_aupsert_self, matchRowOf]
  · simp only [Store.record_discogs_ambiguity, record_discogs_match_matches,
      aget_aupsert_self, matchRowOf]
  · simp only [Store.record_musicbrainz_ambiguity, record_musicbrainz_match_matches,
      aget_aupsert_self, matchRowOf]
  · simp only [Store.record_discogs_failure, record_discogs_match_matches,
      aget_aupsert_self, matchRowOf]
  · simp only [Store.record_discogs_failure]
    rw [discogsCandidatesFor_record]
    rfl
  · simp only [Store.record_musicbrainz_failure, record_musicbrainz_match_matches,
      aget_aupsert_self, matchRowOf]
  · simp only [Store.record_musicbrainz_failure]
    rw [musicbrainzCandidatesFor_record]
    rfl
  · intro c hc
    rw [discogsCandidatesFor_record] at hc
    unfold newDiscogsCandidateRows at hc
    rcases List.mem_map.mp hc with ⟨c0, hc0, rfl⟩
    exact ⟨c0, List.mem_of_mem_filter hc0, rfl, rfl, rfl⟩
  · intro c hc
    rw [musicbrainzCandidatesFor_record] at hc
    have hc2 := List.mem_of_mem_filter hc
    unfold newMusicbrainzCandidateRows at hc2
    rcases List.mem_map.mp hc2 with ⟨c0, hc0, rfl⟩
    exact ⟨c0, hc0, rfl, rfl, rfl⟩

/-- C1 witness: the failure wrapper at a concrete input. -/
theorem claim_C1_witness :
    aget "t" ((emptyStore.record_discogs_failure "t" "q" "boom").discogs_matches) =
      some { release_id := none, confidence := none, status := .error,
             query := some "q", message := some "boom", checked_at := none } :=
  (claim_C1_match_invariants emptyStore "t" "q" "boom" Json.null 1 []
    { track_id := "t" } []).2.2.2.2.1

/-- C1 counterexample: record_discogs_success on a release payload with no
extractable id stores a row with status success and release_id absent,
violating the claimed success-implies-release_id invariant; and
record_discogs_match called directly with an error-status record and a
matching candidate stores a candidate row under status error, violating
the claimed error-implies-no-candidates invariant. -/
theorem claim_C1_counterexample :
    (aget "t" (Store.record_discogs_success emptyStore "t" "q" (Json.obj []) 90).discogs_matches =
      some { release_id := none, confidence := some 90, status := .success,
             query := some "q", message := none, checked_at := none }) ∧
    ((Store.record_discogs_match emptyStore { track_id := "t", status := .error }
        [{ match_id := "t", release_id := some "r", score := some 1 }]).discogsCandidatesFor "t" =
      [{ match_id := "t", release_id := some "r", score := some 1, raw_payload := .null }]) := by
  exact ⟨rfl, rfl⟩

/-- C2: record_match is transactional.  The five statements of
persist_discogs_match / persist_musicbrainz_match all run on the open
transaction and commit is reached only after the last of them, so under a
failure of any statement the observable store is exactly the prior state,
otherwise exactly the fully updated one; in particular the candidate set
of the track is always either the old set or the new set, never a
mixture, and on commit it is exactly the new set. -/
theorem claim_C2_record_match_atomic (s : Store) (r : CatalogMatchRecord)
    (cs : List CatalogCandidateRecord) (failAt : Option Nat) :
    ((s.record_discogs_match_faulty r cs failAt = s) ∨
      (s.record_discogs_match_faulty r cs failAt = s.record_discogs_match r cs)) ∧
    ((s.record_discogs_match_faulty r cs failAt).discogsCandidatesFor r.track_id =
        s.discogsCandidatesFor r.track_id ∨
      (s.record_discogs_match_faulty r cs failAt).discogsCandidatesFor r.track_id =
        newDiscogsCandidateRows r cs) ∧
    ((s.record_discogs_match r cs).discogsCandidatesFor r.track_id =
      newDiscogsCandidateRows r cs) ∧
    ((s.record_musicbrainz_match_faulty r cs failAt = s) ∨
      (s.record_musicbrainz_match_faulty r cs failAt = s.record_musicbrainz_match r cs)) ∧
    ((s.record_musicbrainz_match_faulty r cs failAt).musicbrainzCandidatesFor r.track_id =
        s.musicbrainzCandidatesFor r.track_id ∨
      (s.record_musicbrainz_match_faulty r cs failAt).musicbrainzCandidatesFor r.track_id =
        (newMusicbrainzCandidateRows cs).filter (fun c => c.match_id = r.track_id)) := by
  have hd : s.record_discogs_match_faulty r cs failAt = s ∨
      s.record_discogs_match_faulty r cs failAt = s.record_discogs_match r cs := by
    unfold Store.record_discogs_match_faulty
    cases failAt with
    | none => exact Or.inr rfl
    | some k =>
      by_cases hk : k < (persistDiscogsSteps r cs).length
      · simp [hk]
      · simp [hk]
  have hm : s.record_musicbrainz_match_faulty r cs failAt = s ∨
      s.record_musicbrainz_match_faulty r cs failAt = s.record_musicbrainz_match r cs := by
    unfold Store.record_musicbrainz_match_faulty
    cases failAt with
    | none => exact Or.inr rfl
    | some k =>
      by_cases hk : k < (persistMusicbrainzSteps r cs).length
      · simp [hk]
      · simp [hk]
  refine ⟨hd, ?_, discogsCandidatesFor_record s r cs, hm, ?_⟩
  · rcases hd with h | h
    · exact Or.inl (by rw [h])
    · exact Or.inr (by rw [h, discogsCandidatesFor_record])
  · rcases hm with h | h
    · exact Or.inl (by rw [h])
    · exact Or.inr (by rw [h, musicbrainzCandidatesFor_record])

/-- C9: upsert_track replaces every attribute column of the track row
with the incoming record values, absent values included, never merging
with prior values (only the legacy discogs_payload blob column and
created_at survive a conflict); consequently re-syncing a track through
the ingestion path, which always passes the catalog summary fields as
absent, clears any previously stored denormalized match summary. -/
theorem claim_C9_upsert_replaces_all (s : Store) (record : TrackRecord)
    (tid scid : String) (title artist purl : Option String) (raw : Json) :
    (aget record.track_id (s.upsert_track record).tracks =
      some { title := record.title, artist := record.artist, album := record.album,
             discogs_payload :=
               ((aget record.track_id s.tracks).map (fun r => r.discogs_payload)).getD none,
             discogs_release_id := record.discogs_release_id,
             discogs_confidence := record.discogs_confidence,
             musicbrainz_payload := record.musicbrainz_payload,
             musicbrainz_release_id := record.musicbrainz_release_id,
             musicbrainz_confidence := record.musicbrainz_confidence,
             created_at := ((aget record.track_id s.tracks).map (fun r => r.created_at)).getD s.now,
             updated_at := s.now }) ∧
    ((aget tid (s.sync_soundcloud_track (likeIngestTrackRecord tid title artist)
        { track_id := tid, soundcloud_id := scid, permalink_url := purl,
          raw_payload := raw }).tracks).map (fun r =>
      (r.discogs_release_id, r.discogs_confidence, r.musicbrainz_release_id,
       r.musicbrainz_confidence, r.musicbrainz_payload)) =
      some (none, none, none, none, none)) := by
  constructor
  · rw [Store.upsert_track, aget_aupsert_self]
  · simp only [Store.sync_soundcloud_track, Store.link_soundcloud_source, Store.ensure_track,
      likeIngestTrackRecord, Store.upsert_track, aget_ainsertIgnore_self, aget_aupsert_self,
      Option.getD_some, Option.map_some]
    rfl

/-- C10: the ambiguity wrappers silently drop candidates with no
extractable release id before storage, so every stored candidate row of
an ambiguous recording has a present release id and the stored row count
never exceeds the passed count; a candidate list whose single element has
no id field stores zero rows. -/
theorem claim_C10_ambiguity_drops_idless (s : Store) (tid q : String)
    (cands : List Json) :
    (∀ c ∈ (s.record_discogs_ambiguity tid q cands).discogsCandidatesFor tid,
      c.release_id.isSome = true) ∧
    ((s.record_discogs_ambiguity tid q cands).discogsCandidatesFor tid).length ≤
      cands.length ∧
    (∀ c ∈ (s.record_musicbrainz_ambiguity tid q cands).musicbrainzCandidatesFor tid,
      c.release_id.isSome = true) ∧
    ((s.record_musicbrainz_ambiguity tid q cands).musicbrainzCandidatesFor tid).length ≤
      cands.length ∧
    ((emptyStore.record_discogs_ambiguity "t" "q"
        [Json.obj [("title", Json.str "x")]]).discogsCandidatesFor "t" = []) ∧
    ((emptyStore.record_musicbrainz_ambiguity "t" "q"
        [Json.obj [("title", Json.str "x")]]).musicbrainzCandidatesFor "t" = []) := by
  have hlen : ∀ (f : Json → Option CatalogCandidateRecord),
      (cands.filterMap f).length ≤ cands.length := by
    intro f
    induction cands with
    | nil => simp
    | cons c rest ih =>
      cases hf : f c <;> simp [List.filterMap_cons, hf] <;> omega
  refine ⟨?_, ?_, ?_, ?_, rfl, rfl⟩
  · intro c hc
    rw [Store.record_discogs_ambiguity, discogsCandidatesFor_record] at hc
    unfold newDiscogsCandidateRows at hc
    rcases List.mem_map.mp hc with ⟨c0, hc0, rfl⟩
    have hc1 := List.mem_of_mem_filter hc0
    rcases List.mem_filterMap.mp hc1 with ⟨j, _, hj⟩
    cases hrid : extract_release_id j with
    | none => rw [hrid] at hj; simp at hj
    | some rid =>
      rw [hrid] at hj
      simp at hj
      rw [← hj]
      rfl
  · rw [Store.record_discogs_ambiguity, discogsCandidatesFor_record]
    unfold newDiscogsCandidateRows
    rw [List.length_map]
    exact le_trans (List.length_filter_le _ _) (hlen _)
  · intro c hc
    rw [Store.record_musicbrainz_ambiguity, musicbrainzCandidatesFor_record] at hc
    have hc2 := List.mem_of_mem_filter hc
    unfold newMusicbrainzCandidateRows at hc2
    rcases List.mem_map.mp hc2 with ⟨c0, hc0, rfl⟩
    rcases List.mem_filterMap.mp hc0 with ⟨j, _, hj⟩
    cases hrid : extract_release_id j with
    | none => rw [hrid] at hj; simp at hj
    | some rid =>
      rw [hrid] at hj
      simp at hj
      rw [← hj]
      rfl
  · rw [Store.record_musicbrainz_ambiguity, musicbrainzCandidatesFor_record]
    exact le_trans (List.length_filter_le _ _)
      (le_trans (le_of_eq (List.length_map _ _)) (hlen _))

/-- C10 witness: the empty candidate list at a concrete input. -/
theorem claim_C10_witness :
    ((emptyStore.record_discogs_ambiguity "t" "q" []).discogsCandidatesFor "t").length ≤ 0 :=
  (claim_C10_ambiguity_drops_idless emptyStore "t" "q" []).2.1

/-! Concrete inputs for the catalog decision claims. -/

/-- A MusicBrainz search body wrapping a releases array. -/
def mbBody (rels : List Json) : Json := .obj [("releases", .arr rels)]

/-- A MusicBrainz release element with an id and a score. -/
def mbRel (id : Nat) (score : ℚ) : Json :=
  .obj [("id", .num id), ("score", .num score)]

/-- A structurally valid Discogs search hit with an id and a score. -/
def dgHit (id : Nat) (score : ℚ) : Discogs.SearchResult :=
  { id := some id, result_type := some "release",
    resource_url := some ("https://api.discogs.com/releases/" ++ toString id),
    score := some score }

/-- C4 (amended): only the MusicBrainz client retries rate-limited
responses.  Against an always-rate-limited MusicBrainz endpoint the
lookup sleeps Retry-After seconds (5 when unspecified) after each attempt
and gives up after exactly MAX_ATTEMPTS = 3 attempts with the failure
message rate limited by MusicBrainz; any first answer that is not
rate-limited ends the MusicBrainz loop after exactly one attempt, so no
other failure class is ever retried; and the Discogs client issues
exactly one request for every oracle, retrying nothing. -/
theorem claim_C4_retry_cap (retryAfter : Nat → Option Nat)
    (responses : Nat → Musicbrainz.MbResponse)
    (h : ∀ n, responses n = .rateLimited (retryAfter n))
    (responses2 : Nat → Musicbrainz.MbResponse)
    (h2 : ∀ r, responses2 0 ≠ .rateLimited r)
    (dresponses : Nat → Discogs.DgResponse) :
    ((Musicbrainz.perform_lookup responses).result =
      .error "rate limited by MusicBrainz") ∧
    ((Musicbrainz.perform_lookup responses).attempts = 3) ∧
    ((Musicbrainz.perform_lookup responses).sleeps =
      [(retryAfter 0).getD 5, (retryAfter 1).getD 5, (retryAfter 2).getD 5]) ∧
    ((Musicbrainz.perform_lookup responses2).attempts = 1) ∧
    ((Discogs.perform_lookup dresponses).attempts = 1) := by
  have htrace : Musicbrainz.perform_lookup responses =
      ⟨.error "rate limited by MusicBrainz", 3,
       [(retryAfter 0).getD 5, (retryAfter 1).getD 5, (retryAfter 2).getD 5]⟩ := by
    unfold Musicbrainz.perform_lookup
    rw [Musicbrainz.lookupGo, h 0]
    simp only [Musicbrainz.MAX_ATTEMPTS]
    rw [dif_neg (by omega)]
    rw [Musicbrainz.lookupGo, h 1]
    simp only [Musicbrainz.MAX_ATTEMPTS]
    rw [dif_neg (by omega)]
    rw [Musicbrainz.lookupGo, h 2]
    simp only [Musicbrainz.MAX_ATTEMPTS]
    rw [dif_pos (by omega)]
    simp
  have hone : (Musicbrainz.perform_lookup responses2).attempts = 1 := by
    unfold Musicbrainz.perform_lookup
    rw [Musicbrainz.lookupGo]
    cases hr : responses2 0 with
    | rateLimited r => exact absurd hr (h2 r)
    | ok body => rfl
    | badJson m => rfl
    | unauthorized => rfl
    | notFound => rfl
    | otherStatus t => rfl
    | transport m => rfl
  have hdg : (Discogs.perform_lookup dresponses).attempts = 1 := by
    unfold Discogs.perform_lookup
    cases dresponses 0 <;> rfl
  exact ⟨by rw [htrace], by rw [htrace], by rw [htrace], hone, hdg⟩

/-- C4 witness: concrete oracles. -/
theorem claim_C4_witness :
    (Musicbrainz.perform_lookup (fun _ => .rateLimited none)).attempts = 3 :=
  (claim_C4_retry_cap (fun _ => none) (fun _ => .rateLimited none) (fun _ => rfl)
    (fun _ => .notFound) (fun _ h => Musicbrainz.MbResponse.noConfusion h)
    (fun _ => .status "x")).2.1

/-- C4 counterexample: the Discogs client never retries.  Against an
always-rate-limited search endpoint it gives up after a single attempt
with the failure message search returned status 429 Too Many Requests —
not after three attempts and not with a rate-limited message — refuting
the claim that both catalog clients retry up to 3 attempts. -/
theorem claim_C4_counterexample :
    (Discogs.perform_lookup (fun _ => .status "429 Too Many Requests")).attempts = 1 ∧
    (Discogs.perform_lookup (fun _ => .status "429 Too Many Requests")).result =
      .error "search returned status 429 Too Many Requests" ∧
    (1 : Nat) ≠ 3 :=
  ⟨rfl, rfl, by decide⟩

/-- C5 (amended): the decision table holds for both clients on the spec
test vectors, except that the empty-list failure message of the
MusicBrainz client is MusicBrainz returned no releases, while only the
Discogs client uses no releases found. -/
theorem claim_C5_decision_table :
    (Discogs.decide_results [dgHit 1 90] = .ok (.success (dgHit 1 90) 90)) ∧
    (Discogs.decide_results [dgHit 1 96, dgHit 2 40] =
      .ok (.success (dgHit 1 96) 96)) ∧
    (Discogs.decide_results [dgHit 1 87, dgHit 2 76] =
      .ok (.success (dgHit 1 87) 87)) ∧
    (Discogs.decide_results [dgHit 1 80, dgHit 2 78] =
      .ok (.ambiguous [Discogs.candidateJson (dgHit 1 80),
                       Discogs.candidateJson (dgHit 2 78)])) ∧
    (Discogs.decide_results [] = .error "no releases found") ∧
    (Musicbrainz.interpret_lookup (mbBody [mbRel 1 90]) =
      .ok (.success (mbRel 1 90) 90)) ∧
    (Musicbrainz.interpret_lookup (mbBody [mbRel 1 96, mbRel 2 40]) =
      .ok (.success (mbRel 1 96) 96)) ∧
    (Musicbrainz.interpret_lookup (mbBody [mbRel 1 87, mbRel 2 76]) =
      .ok (.success (mbRel 1 87) 87)) ∧
    (Musicbrainz.interpret_lookup (mbBody [mbRel 1 80, mbRel 2 78]) =
      .ok (.ambiguous [mbRel 1 80, mbRel 2 78])) ∧
    (Musicbrainz.interpret_lookup (mbBody []) =
      .error "MusicBrainz returned no releases") := by
  refine ⟨rfl, ?_, ?_, rfl, rfl, rfl, rfl, ?_, rfl, rfl⟩
  · norm_num [Discogs.decide_results, Discogs.filterResults, stableSort, insertSorted,
      Discogs.optScoreLe, dgHit]
    intro h
    exact absurd h (by decide)
  · norm_num [Discogs.decide_results, Discogs.filterResults, stableSort, insertSorted,
      Discogs.optScoreLe, dgHit]
    intro h
    exact absurd h (by decide)
  · norm_num [Musicbrainz.interpret_lookup, Musicbrainz.scoreOf, stableSort, insertSorted,
      mbBody, mbRel, Json.get, Json.get.go, Json.asF64, Json.asArray,
      (by decide : ¬("id" = "score")), (by decide : ¬("releases" = "id")),
      (by decide : ¬("releases" = "score"))]

/-- C5 counterexample: the MusicBrainz client reports an empty release
list as MusicBrainz returned no releases, not as the claimed no releases
found (the 404 path of the same client uses yet another message, no
releases found for track). -/
theorem claim_C5_counterexample :
    (Musicbrainz.interpret_lookup (mbBody []) =
      .error "MusicBrainz returned no releases") ∧
    ("MusicBrainz returned no releases" ≠ "no releases found") :=
  ⟨rfl, by decide⟩

/-! C3 machinery: the decision of each client on a pre-sorted candidate
list, stated through the quantities of the spec rule. -/

/-- Top reported score of a MusicBrainz release list (0 when absent). -/
def mbTop (rels : List Json) : ℚ := Musicbrainz.scoreOf (rels.headD .null)

/-- Best score after the ceiling bump: a nonpositive top score counts as
the 100 default ceiling. -/
def mbBest (rels : List Json) : ℚ := if mbTop rels ≤ 0 then 100 else mbTop rels

/-- Runner-up reported score (0 when there is none). -/
def mbSecond (rels : List Json) : ℚ := ((rels[1]?).map Musicbrainz.scoreOf).getD 0

theorem mb_second_bind_eq (o : Option Json) :
    (o.bind (fun release => (release.get "score").bind Json.asF64)).getD 0 =
      (o.map Musicbrainz.scoreOf).getD 0 := by
  cases o with
  | none => rfl
  | some r => rfl

theorem map_snd_scored (l : List Json) :
    l.map (Prod.snd ∘ (fun release => (Musicbrainz.scoreOf release, release))) = l := by
  induction l with
  | nil => rfl
  | cons a l2 ih => simp only [List.map_cons, ih, Function.comp_apply]

theorem interpret_lookup_on_sorted (rels : List Json) (hne : rels ≠ [])
    (hsorted : (rels.map Musicbrainz.scoreOf).Pairwise (fun a b => b ≤ a)) :
    Musicbrainz.interpret_lookup (mbBody rels) =
      if rels.length = 1 ∨ 95 ≤ mbBest rels ∨
          (85 ≤ mbBest rels ∧ 10 ≤ mbBest rels - mbSecond rels) then
        .ok (.success (rels.headD .null) (mbBest rels))
      else .ok (.ambiguous (rels.take 5)) := by
  have hpair : (rels.map (fun release =>
      (Musicbrainz.scoreOf release, release))).Pairwise
      (fun a b => (decide (b.1 ≤ a.1)) = true) := by
    rw [List.pairwise_map]
    rw [List.pairwise_map] at hsorted
    exact hsorted.imp (fun h => by simpa using h)
  cases rels with
  | nil => exact absurd rfl hne
  | cons r rest =>
    have hget : ((mbBody (r :: rest)).get "releases").bind Json.asArray =
      some (r :: rest) := rfl
    have hsort := stableSort_of_pairwise _ _ hpair
    simp only [List.map_cons] at hsort
    simp only [Musicbrainz.interpret_lookup, hget, List.map_cons, hsort,
      List.map_map, List.headD_cons]
    rw [map_snd_scored rest]
    have hbest : mbBest (r :: rest) =
        (if Musicbrainz.scoreOf r ≤ 0 then 100 else Musicbrainz.scoreOf r) := by
      simp [mbBest, mbTop]
    have hsec : mbSecond (r :: rest) =
        (((r :: rest)[1]?).bind (fun release =>
          (release.get "score").bind Json.asF64)).getD 0 :=
      (mb_second_bind_eq ((r :: rest)[1]?)).symm
    rw [hbest, hsec]

/-- Inhabited Discogs hit for headD. -/
instance : Inhabited Discogs.SearchResult := ⟨{}⟩

theorem decide_results_on_sorted (results : List Discogs.SearchResult)
    (hne : results ≠ [])
    (hvalid : ∀ r ∈ results, r.result_type = some "release" ∧
      ∃ u, r.resource_url = some u ∧ u ≠ "")
    (hsorted : results.Pairwise
      (fun a b => Discogs.optScoreLe b.score a.score = true)) :
    Discogs.decide_results results =
      if results.length = 1 ∨
          (85 ≤ (((results.head?).bind Discogs.SearchResult.score).getD 0 : ℚ) ∧
            10 ≤ (((results.head?).bind Discogs.SearchResult.score).getD 0 : ℚ) -
              (((results[1]?).bind Discogs.SearchResult.score).getD 0 : ℚ)) then
        .ok (.success (results.headD default)
          (((results.head?).bind Discogs.SearchResult.score).getD 0))
      else
        .ok (.ambiguous ((results.take 5).map Discogs.candidateJson)) := by
  have hfilter : Discogs.filterResults results = results := by
    unfold Discogs.filterResults
    rw [List.filter_eq_self]
    intro r hr
    rcases hvalid r hr with ⟨ht, u, hu, _⟩
    simp [ht, hu]
  simp only [Discogs.decide_results, hfilter, stableSort_of_pairwise _ _ hsorted]
  cases results with
  | nil => exact absurd rfl hne
  | cons top rest =>
    simp only [List.isEmpty_cons, Bool.false_eq_true, if_false, List.head?_cons,
      List.headD_cons, Option.some_bind]
    rcases hvalid top (List.mem_cons_self top rest) with ⟨_, u, hu, hune⟩
    by_cases hcond : (top :: rest).length = 1 ∨
        (85 ≤ (top.score.getD 0 : ℚ) ∧
          10 ≤ (top.score.getD 0 : ℚ) -
            (((top :: rest)[1]?).bind Discogs.SearchResult.score).getD 0)
    · rw [if_pos hcond, if_pos hcond]
      rw [hu]
      simp only [Option.getD_some]
      rw [if_neg hune]
    · rw [if_neg hcond, if_neg hcond]

/-- C3 (amended): for every non-empty, structurally valid (release-typed
with a usable non-empty resource url), score-descending candidate list,
the MusicBrainz client accepts exactly when there is a single candidate,
or the top score (bumped to the 100 default ceiling when the catalog
reports no positive score) is at least 95, or it is at least 85 with a
margin of at least 10 over the runner-up, with confidence equal to that
score, and otherwise returns Ambiguous with at most the top 5 candidates;
the Discogs client has no high-confidence shortcut and no default
ceiling: it accepts exactly when there is a single candidate or the top
score (0 when absent) is at least 85 with a margin of at least 10, with
confidence equal to the raw top score, and otherwise returns Ambiguous
with at most the top 5 candidates. -/
theorem claim_C3_confidence_rules :
    (∀ rels : List Json, rels ≠ [] →
      ((rels.map Musicbrainz.scoreOf).Pairwise (fun a b => b ≤ a)) →
      Musicbrainz.interpret_lookup (mbBody rels) =
        if rels.length = 1 ∨ 95 ≤ mbBest rels ∨
            (85 ≤ mbBest rels ∧ 10 ≤ mbBest rels - mbSecond rels) then
          .ok (.success (rels.headD .null) (mbBest rels))
        else .ok (.ambiguous (rels.take 5))) ∧
    (∀ results : List Discogs.SearchResult, results ≠ [] →
      (∀ r ∈ results, r.result_type = some "release" ∧
        ∃ u, r.resource_url = some u ∧ u ≠ "") →
      (results.Pairwise (fun a b => Discogs.optScoreLe b.score a.score = true)) →
      Discogs.decide_results results =
        if results.length = 1 ∨
            (85 ≤ (((results.head?).bind Discogs.SearchResult.score).getD 0 : ℚ) ∧
              10 ≤ (((results.head?).bind Discogs.SearchResult.score).getD 0 : ℚ) -
                (((results[1]?).bind Discogs.SearchResult.score).getD 0 : ℚ)) then
          .ok (.success (results.headD default)
            (((results.head?).bind Discogs.SearchResult.score).getD 0))
        else
          .ok (.ambiguous ((results.take 5).map Discogs.candidateJson))) :=
  ⟨interpret_lookup_on_sorted, decide_results_on_sorted⟩

/-- C3 witness: the singleton vector for each client. -/
theorem claim_C3_witness :
    Musicbrainz.interpret_lookup (mbBody [mbRel 1 90]) =
      .ok (.success (mbRel 1 90) (mbBest [mbRel 1 90])) := by
  have h := claim_C3_confidence_rules.1 [mbRel 1 90] (by simp)
    (by simp [List.pairwise_map])
  rw [h]
  simp

/-- C3 counterexample: the Discogs client has no at-least-95 shortcut.
On the valid score-descending list with scores 96 and 90 the claimed rule
demands Success (top score 96 is at or above the high-confidence
threshold 95) but the code returns Ambiguous because the margin over the
runner-up is only 6. -/
theorem claim_C3_counterexample :
    Discogs.decide_results [dgHit 1 96, dgHit 2 90] =
      .ok (.ambiguous [Discogs.candidateJson (dgHit 1 96),
                       Discogs.candidateJson (dgHit 2 90)]) := by
  norm_num [Discogs.decide_results, Discogs.filterResults, stableSort, insertSorted,
    Discogs.optScoreLe, dgHit]

/-! C8: list_library_status pagination. -/

theorem statusLe_total (a b : String × TrackRow) :
    statusLe a b = true ∨ statusLe b a = true := by
  unfold statusLe
  by_cases h : a.2.updated_at = b.2.updated_at
  · rw [if_pos h, if_pos h.symm]
    rcases le_total a.1 b.1 with hle | hle
    · exact Or.inl (decide_eq_true hle)
    · exact Or.inr (decide_eq_true hle)
  · rw [if_neg h, if_neg (fun hh => h hh.symm)]
    rcases lt_or_gt_of_ne h with hlt | hgt
    · exact Or.inr (decide_eq_true hlt)
    · exact Or.inl (decide_eq_true hgt)

theorem statusLe_trans (a b c : String × TrackRow)
    (hab : statusLe a b = true) (hbc : statusLe b c = true) :
    statusLe a c = true := by
  unfold statusLe at *
  by_cases h1 : a.2.updated_at = b.2.updated_at
  · rw [if_pos h1] at hab
    by_cases h2 : b.2.updated_at = c.2.updated_at
    · rw [if_pos h2] at hbc
      rw [if_pos (h1.trans h2)]
      exact decide_eq_true (le_trans (of_decide_eq_true hab) (of_decide_eq_true hbc))
    · rw [if_neg h2] at hbc
      have hcb : c.2.updated_at < b.2.updated_at := of_decide_eq_true hbc
      have h3 : ¬a.2.updated_at = c.2.updated_at := by omega
      rw [if_neg h3]
      exact decide_eq_true (by omega)
  · rw [if_neg h1] at hab
    have hba : b.2.updated_at < a.2.updated_at := of_decide_eq_true hab
    by_cases h2 : b.2.updated_at = c.2.updated_at
    · rw [if_pos h2] at hbc
      have h3 : ¬a.2.updated_at = c.2.updated_at := by omega
      rw [if_neg h3]
      exact decide_eq_true (by omega)
    · rw [if_neg h2] at hbc
      have hcb : c.2.updated_at < b.2.updated_at := of_decide_eq_true hbc
      have h3 : ¬a.2.updated_at = c.2.updated_at := by omega
      rw [if_neg h3]
      exact decide_eq_true (by omega)

/-- The store holding exactly the two tracks of the pagination test, the
second upserted one tick after the first. -/
def twoRowStore : Store :=
  (emptyStore.upsert_track { track_id := "a" }).upsert_track { track_id := "b" }

/-- C8 (amended): list_status clamps the requested limit into the range 1
to 500 (default 100 when absent) — not merely capping it at 500, since a
requested limit of 0 is raised to 1 —, reports as total the count of all
filtered rows regardless of the page, returns rows ordered
most-recently-updated first with ties broken by ascending track id, and
partitions the result set across pages: over the 2-row table, limit 1
with offsets 0 and 1 returns each row exactly once with total 2 both
times. -/
theorem claim_C8_list_status_pagination (s : Store) (filter : StatusFilter) :
    ((s.list_library_status filter).limit =
      max 1 (min (filter.limit.getD 100) 500)) ∧
    ((s.list_library_status filter).total =
      (s.tracks.filter (statusWhere s filter)).length) ∧
    ((s.list_library_status filter).rows.Pairwise (fun a b => statusLe a b = true)) ∧
    ((twoRowStore.list_library_status
        { limit := some 1, offset := some 0 }).rows.map Prod.fst = ["b"]) ∧
    ((twoRowStore.list_library_status
        { limit := some 1, offset := some 1 }).rows.map Prod.fst = ["a"]) ∧
    ((twoRowStore.list_library_status { limit := some 1, offset := some 0 }).total = 2) ∧
    ((twoRowStore.list_library_status { limit := some 1, offset := some 1 }).total = 2) := by
  refine ⟨?_, rfl, ?_, rfl, rfl, rfl, rfl⟩
  · show min (max (filter.limit.getD 100) 1) 500 = max 1 (min (filter.limit.getD 100) 500)
    omega
  · have hsorted := stableSort_pairwise statusLe statusLe_total statusLe_trans
      (s.tracks.filter (statusWhere s filter))
    exact hsorted.sublist ((List.take_sublist _ _).trans (List.drop_sublist _ _))

/-- C8 counterexample: a requested limit of 0 is raised to an effective
page size of 1, while the claimed rule (the requested limit bounded only
by the 500 cap) would give 0. -/
theorem claim_C8_counterexample :
    (emptyStore.list_library_status { limit := some 0 }).limit = 1 ∧
    min 0 500 = 0 ∧ (1 : Nat) ≠ 0 :=
  ⟨rfl, rfl, by decide⟩

/-! C6 and C7 machinery: characterizing sync_rekordbox_tracks. -/

theorem string_prefix_inj (p x y : String) (h : p ++ x = p ++ y) : x = y := by
  have hdata : p.data ++ x.data = p.data ++ y.data := congrArg String.data h
  have hxy : x.data = y.data := List.append_cancel_left hdata
  cases x
  cases y
  exact congrArg String.mk hxy

theorem aget_some_mem (k : String) (v : α) (l : List (String × α))
    (h : aget k l = some v) : (k, v) ∈ l := by
  induction l with
  | nil => simp [aget] at h
  | cons p rest ih =>
    obtain ⟨a, w⟩ := p
    by_cases ha : a = k
    · subst ha
      simp [aget] at h
      simp [h]
    · simp [aget, ha] at h
      simp [ih h]

theorem mem_aget_isSome (k : String) (v : α) (l : List (String × α))
    (h : (k, v) ∈ l) : (aget k l).isSome = true := by
  induction l with
  | nil => simp at h
  | cons p rest ih =>
    obtain ⟨a, w⟩ := p
    by_cases ha : a = k
    · simp [aget, ha]
    · rcases List.mem_cons.mp h with heq | hmem
      · exact absurd (congrArg Prod.fst heq).symm ha
      · simp [aget, ha, ih hmem]

theorem mem_aupsert_const (k : String) (v : α) (l : List (String × α)) :
    ∀ p ∈ aupsert k (fun _ => v) l, p = (k, v) ∨ p ∈ l := by
  induction l with
  | nil => simp [aupsert]
  | cons q rest ih =>
    obtain ⟨a, w⟩ := q
    intro p hp
    by_cases ha : a = k
    · simp [aupsert, ha] at hp
      rcases hp with h | h
      · exact Or.inl (by simp [h])
      · exact Or.inr (by simp [h])
    · simp [aupsert, ha] at hp
      rcases hp with h | h
      · exact Or.inr (by simp [h])
      · rcases ih p h with h2 | h2
        · exact Or.inl h2
        · exact Or.inr (by simp [h2])

theorem aget_filter_of_keep (x : String) (q : String × α → Bool) (l : List (String × α))
    (h : ∀ p ∈ l, p.1 = x → q p = true) : aget x (l.filter q) = aget x l := by
  induction l with
  | nil => simp
  | cons p rest ih =>
    obtain ⟨a, w⟩ := p
    by_cases ha : a = x
    · subst ha
      have hq : q (a, w) = true := h (a, w) (List.mem_cons_self _ _) rfl
      simp [List.filter_cons, hq, aget]
    · have ih2 := ih (fun p hp hx => h p (List.mem_cons_of_mem _ hp) hx)
      by_cases hq : q (a, w) = true
      · simp [List.filter_cons, hq, aget, ha, ih2]
      · simp only [Bool.not_eq_true] at hq
        simp [List.filter_cons, hq, aget, ha, ih2]

theorem aget_eq_none_of_no_key (x : String) (l : List (String × α))
    (h : ∀ p ∈ l, p.1 ≠ x) : aget x l = none := by
  induction l with
  | nil => rfl
  | cons p rest ih =>
    obtain ⟨a, w⟩ := p
    have ha : a ≠ x := h (a, w) (List.mem_cons_self _ _)
    simp [aget, ha]
    exact ih (fun p hp => h p (List.mem_cons_of_mem _ hp))

/-- The external-id list of an import. -/
def rbIds (ts : List RekordboxTrack) : List String :=
  ts.map RekordboxTrack.rekordbox_id

/-- Canonical mapping shape: every mapping row points its external id at
the synthetic rekordbox-prefixed track id. -/
def CanonMap (m : List (String × String)) : Prop :=
  ∀ p ∈ m, p.2 = "rekordbox:" ++ p.1

theorem canonMap_trackId (em : List (String × String)) (track : RekordboxTrack)
    (hem : CanonMap em) :
    rekordboxTrackId em track = "rekordbox:" ++ track.rekordbox_id := by
  unfold rekordboxTrackId
  cases hg : aget track.rekordbox_id em with
  | none => rfl
  | some v =>
    have := hem _ (aget_some_mem _ _ _ hg)
    simpa using this

theorem canonMap_aupsert (em : List (String × String)) (k : String)
    (hem : CanonMap em) :
    CanonMap (aupsert k (fun _ => "rekordbox:" ++ k) em) := by
  intro p hp
  rcases mem_aupsert_const k _ em p hp with h | h
  · simp [h]
  · exact hem p h

theorem rekordboxSyncLoop_stale (now : Nat) (ts : List RekordboxTrack) :
    ∀ (s : Store) (em sm : List (String × String)),
    (rekordboxSyncLoop now s em sm ts).2 =
      sm.filter (fun p => decide (p.1 ∉ rbIds ts)) := by
  induction ts with
  | nil =>
    intro s em sm
    simp [rekordboxSyncLoop, rbIds]
  | cons t rest ih =>
    intro s em sm
    rw [rekordboxSyncLoop, ih]
    unfold aremove
    rw [List.filter_filter]
    apply List.filter_congr
    intro p _
    by_cases h1 : p.1 = t.rekordbox_id <;> simp [rbIds, h1]

theorem rekordboxSyncLoop_frames (now : Nat) (ts : List RekordboxTrack) :
    ∀ (s : Store) (em sm : List (String × String)),
    ((rekordboxSyncLoop now s em sm ts).1.soundcloud_sources = s.soundcloud_sources) ∧
    ((rekordboxSyncLoop now s em sm ts).1.discogs_matches = s.discogs_matches) ∧
    ((rekordboxSyncLoop now s em sm ts).1.musicbrainz_matches = s.musicbrainz_matches) ∧
    ((rekordboxSyncLoop now s em sm ts).1.discogs_candidates = s.discogs_candidates) ∧
    ((rekordboxSyncLoop now s em sm ts).1.musicbrainz_candidates = s.musicbrainz_candidates) := by
  induction ts with
  | nil => intro s em sm; exact ⟨rfl, rfl, rfl, rfl, rfl⟩
  | cons t rest ih =>
    intro s em sm
    rw [rekordboxSyncLoop]
    have h := ih (rekordboxApplyTrack now t (rekordboxTrackId em t) s)
      (aupsert t.rekordbox_id (fun _ => rekordboxTrackId em t) em)
      (aremove t.rekordbox_id sm)
    have happly : ∀ s2 : Store,
        ((rekordboxApplyTrack now t (rekordboxTrackId em t) s2).soundcloud_sources =
          s2.soundcloud_sources) ∧
        ((rekordboxApplyTrack now t (rekordboxTrackId em t) s2).discogs_matches =
          s2.discogs_matches) ∧
        ((rekordboxApplyTrack now t (rekordboxTrackId em t) s2).musicbrainz_matches =
          s2.musicbrainz_matches) ∧
        ((rekordboxApplyTrack now t (rekordboxTrackId em t) s2).discogs_candidates =
          s2.discogs_candidates) ∧
        ((rekordboxApplyTrack now t (rekordboxTrackId em t) s2).musicbrainz_candidates =
          s2.musicbrainz_candidates) := by
      intro s2
      unfold rekordboxApplyTrack
      cases t.location.or t.normalized_path <;> exact ⟨rfl, rfl, rfl, rfl, rfl⟩
    rcases h with ⟨h1, h2, h3, h4, h5⟩
    rcases happly s with ⟨g1, g2, g3, g4, g5⟩
    exact ⟨h1.trans g1, h2.trans g2, h3.trans g3, h4.trans g4, h5.trans g5⟩

theorem rekordboxApplyTrack_mappings (now : Nat) (track : RekordboxTrack)
    (track_id : String) (s : Store) :
    (rekordboxApplyTrack now track track_id s).rekordbox_mappings =
      aupsert track.rekordbox_id (fun _ => track_id) s.rekordbox_mappings := by
  unfold rekordboxApplyTrack
  cases track.location.or track.normalized_path <;> rfl

theorem rekordboxApplyTrack_tracks (now : Nat) (track : RekordboxTrack)
    (track_id : String) (s : Store) :
    (rekordboxApplyTrack now track track_id s).tracks =
      aupsert track_id (fun old =>
        match old with
        | none => { title := track.title, artist := track.artist, album := track.album,
                    created_at := now, updated_at := now }
        | some r => { r with title := track.title, artist := track.artist,
                             album := track.album, updated_at := now }) s.tracks := by
  unfold rekordboxApplyTrack
  cases track.location.or track.normalized_path <;> rfl

theorem rekordboxSyncLoop_mappings (now : Nat) (ts : List RekordboxTrack) :
    ∀ (s : Store) (em sm : List (String × String)), CanonMap em →
    ∀ x : String,
    aget x (rekordboxSyncLoop now s em sm ts).1.rekordbox_mappings =
      if x ∈ rbIds ts then some ("rekordbox:" ++ x)
      else aget x s.rekordbox_mappings := by
  induction ts with
  | nil =>
    intro s em sm _ x
    simp [rekordboxSyncLoop, rbIds]
  | cons t rest ih =>
    intro s em sm hem x
    rw [rekordboxSyncLoop]
    have htid := canonMap_trackId em t hem
    have hem2 : CanonMap (aupsert t.rekordbox_id
        (fun _ => rekordboxTrackId em t) em) := by
      rw [htid]
      exact canonMap_aupsert em t.rekordbox_id hem
    rw [ih _ _ _ hem2 x]
    have hcons : rbIds (t :: rest) = t.rekordbox_id :: rbIds rest := rfl
    by_cases hx : x ∈ rbIds rest
    · have hx2 : x ∈ rbIds (t :: rest) := by
        rw [hcons]
        exact List.mem_cons_of_mem _ hx
      rw [if_pos hx, if_pos hx2]
    · rw [if_neg hx]
      have hmaps := rekordboxApplyTrack_mappings now t (rekordboxTrackId em t) s
      by_cases hxt : x = t.rekordbox_id
      · subst hxt
        rw [if_pos (by rw [hcons]; exact List.mem_cons_self _ _)]
        rw [hmaps, htid, aget_aupsert_self]
      · have hx3 : x ∉ rbIds (t :: rest) := by
          rw [hcons]
          intro hmem
          rcases List.mem_cons.mp hmem with h | h
          · exact hxt h
          · exact hx h
        rw [if_neg hx3, hmaps, aget_aupsert_ne _ _ hxt]

theorem rekordboxSyncLoop_canon (now : Nat) (ts : List RekordboxTrack) :
    ∀ (s : Store) (em sm : List (String × String)), CanonMap em →
    CanonMap s.rekordbox_mappings →
    CanonMap (rekordboxSyncLoop now s em sm ts).1.rekordbox_mappings := by
  induction ts with
  | nil =>
    intro s em sm _ hs
    exact hs
  | cons t rest ih =>
    intro s em sm hem hs
    rw [rekordboxSyncLoop]
    have htid := canonMap_trackId em t hem
    have hem2 : CanonMap (aupsert t.rekordbox_id
        (fun _ => rekordboxTrackId em t) em) := by
      rw [htid]
      exact canonMap_aupsert em t.rekordbox_id hem
    refine ih _ _ _ hem2 ?_
    rw [rekordboxApplyTrack_mappings, htid]
    exact canonMap_aupsert s.rekordbox_mappings t.rekordbox_id hs

theorem rekordboxSyncLoop_tracks_mono (now : Nat) (ts : List RekordboxTrack) :
    ∀ (s : Store) (em sm : List (String × String)) (tid : String),
    (aget tid s.tracks).isSome = true →
    (aget tid (rekordboxSyncLoop now s em sm ts).1.tracks).isSome = true := by
  induction ts with
  | nil =>
    intro s em sm tid h
    exact h
  | cons t rest ih =>
    intro s em sm tid h
    rw [rekordboxSyncLoop]
    refine ih _ _ _ tid ?_
    rw [rekordboxApplyTrack_tracks]
    by_cases htid : tid = rekordboxTrackId em t
    · subst htid
      rw [aget_aupsert_self]
      rfl
    · rw [aget_aupsert_ne _ _ htid]
      exact h

theorem rekordboxSyncLoop_tracks_present (now : Nat) (ts : List RekordboxTrack) :
    ∀ (s : Store) (em sm : List (String × String)), CanonMap em →
    ∀ x ∈ rbIds ts,
    (aget ("rekordbox:" ++ x) (rekordboxSyncLoop now s em sm ts).1.tracks).isSome = true := by
  induction ts with
  | nil =>
    intro s em sm _ x hx
    simp [rbIds] at hx
  | cons t rest ih =>
    intro s em sm hem x hx
    rw [rekordboxSyncLoop]
    have htid := canonMap_trackId em t hem
    have hem2 : CanonMap (aupsert t.rekordbox_id
        (fun _ => rekordboxTrackId em t) em) := by
      rw [htid]
      exact canonMap_aupsert em t.rekordbox_id hem
    have hcons : rbIds (t :: rest) = t.rekordbox_id :: rbIds rest := rfl
    rw [hcons] at hx
    rcases List.mem_cons.mp hx with hxt | hxr
    · subst hxt
      refine rekordboxSyncLoop_tracks_mono now rest _ _ _ _ ?_
      rw [rekordboxApplyTrack_tracks, htid, aget_aupsert_self]
      rfl
    · exact ih _ _ _ hem2 x hxr

theorem aupsert_isSome_mono (k tid : String) (f : Option α → α) (l : List (String × α))
    (h : (aget tid l).isSome = true) : (aget tid (aupsert k f l)).isSome = true := by
  by_cases htid : tid = k
  · subst htid
    rw [aget_aupsert_self]
    rfl
  · rw [aget_aupsert_ne _ _ htid]
    exact h

theorem filter_nil_of_subfilter (p q : α → Bool) (l : List α)
    (h : l.filter p = []) : (l.filter q).filter p = [] := by
  rw [List.filter_eq_nil_iff] at h ⊢
  intro a ha
  exact h a (List.mem_of_mem_filter ha)

/-- The stale-deletion pass of sync_rekordbox_tracks. -/
def deleteFold (stale : List (String × String)) (s : Store) : Store :=
  stale.foldl (fun t p => t.delete_track_cascade p.2) s

theorem deleteFold_nil (s : Store) : deleteFold [] s = s := rfl

theorem aget_aremove_none (v w : String) (l : List (String × α))
    (h : aget v l = none) : aget v (aremove w l) = none := by
  by_cases hw : v = w
  · subst hw
    exact aget_aremove_self v l
  · rw [aget_aremove_ne _ _ hw]
    exact h

theorem deleteFold_none (stale : List (String × String)) :
    ∀ (s : Store) (v : String),
    aget v s.tracks = none →
    aget v s.local_assets = none →
    aget v s.rekordbox_sources = none →
    aget v s.soundcloud_sources = none →
    aget v s.discogs_matches = none →
    aget v s.musicbrainz_matches = none →
    s.discogsCandidatesFor v = [] →
    s.musicbrainzCandidatesFor v = [] →
    aget v (deleteFold stale s).tracks = none ∧
    aget v (deleteFold stale s).local_assets = none ∧
    aget v (deleteFold stale s).rekordbox_sources = none ∧
    aget v (deleteFold stale s).soundcloud_sources = none ∧
    aget v (deleteFold stale s).discogs_matches = none ∧
    aget v (deleteFold stale s).musicbrainz_matches = none ∧
    (deleteFold stale s).discogsCandidatesFor v = [] ∧
    (deleteFold stale s).musicbrainzCandidatesFor v = [] := by
  induction stale with
  | nil =>
    intro s v h1 h2 h3 h4 h5 h6 h7 h8
    exact ⟨h1, h2, h3, h4, h5, h6, h7, h8⟩
  | cons q rest ih =>
    intro s v h1 h2 h3 h4 h5 h6 h7 h8
    refine ih (s.delete_track_cascade q.2) v (aget_aremove_none v q.2 _ h1)
      (aget_aremove_none v q.2 _ h2) (aget_aremove_none v q.2 _ h3)
      (aget_aremove_none v q.2 _ h4) (aget_aremove_none v q.2 _ h5)
      (aget_aremove_none v q.2 _ h6) ?_ ?_
    · exact filter_nil_of_subfilter _ _ _ h7
    · exact filter_nil_of_subfilter _ _ _ h8

theorem deleteFold_deleted (stale : List (String × String)) :
    ∀ (s : Store) (v : String), v ∈ stale.map Prod.snd →
    aget v (deleteFold stale s).tracks = none ∧
    aget v (deleteFold stale s).local_assets = none ∧
    aget v (deleteFold stale s).rekordbox_sources = none ∧
    aget v (deleteFold stale s).soundcloud_sources = none ∧
    aget v (deleteFold stale s).discogs_matches = none ∧
    aget v (deleteFold stale s).musicbrainz_matches = none ∧
    (deleteFold stale s).discogsCandidatesFor v = [] ∧
    (deleteFold stale s).musicbrainzCandidatesFor v = [] := by
  induction stale with
  | nil =>
    intro s v hv
    simp at hv
  | cons q rest ih =>
    intro s v hv
    by_cases hqv : q.2 = v
    · subst hqv
      refine deleteFold_none rest (s.delete_track_cascade q.2) q.2
        (aget_aremove_self _ _) (aget_aremove_self _ _) (aget_aremove_self _ _)
        (aget_aremove_self _ _) (aget_aremove_self _ _) (aget_aremove_self _ _)
        ?_ ?_
      · exact filter_ne_then_eq q.2 s.discogs_candidates
      · exact filter_ne_then_eq q.2 s.musicbrainz_candidates
    · rw [List.map_cons] at hv
      rcases List.mem_cons.mp hv with h | h
      · exact absurd h.symm hqv
      · exact ih (s.delete_track_cascade q.2) v h

theorem deleteFold_tracks_keep (stale : List (String × String)) :
    ∀ (s : Store) (tid : String), tid ∉ stale.map Prod.snd →
    aget tid (deleteFold stale s).tracks = aget tid s.tracks := by
  induction stale with
  | nil =>
    intro s tid _
    rfl
  | cons q rest ih =>
    intro s tid htid
    have h1 : tid ∉ rest.map Prod.snd := by
      intro h
      exact htid (by simp [h])
    have h2 : tid ≠ q.2 := by
      intro h
      exact htid (by simp [h])
    have := ih (s.delete_track_cascade q.2) tid h1
    rw [deleteFold] at this ⊢
    rw [List.foldl_cons]
    rw [this]
    show aget tid (aremove q.2 s.tracks) = aget tid s.tracks
    exact aget_aremove_ne q.2 tid h2 s.tracks

theorem deleteFold_mappings_cleared (stale : List (String × String)) :
    ∀ (s : Store) (x : String),
    (∀ p ∈ s.rekordbox_mappings, p.1 = x → p.2 ∈ stale.map Prod.snd) →
    aget x (deleteFold stale s).rekordbox_mappings = none := by
  induction stale with
  | nil =>
    intro s x h
    refine aget_eq_none_of_no_key x _ ?_
    intro p hp hx
    simpa using h p hp hx
  | cons q rest ih =>
    intro s x h
    refine ih (s.delete_track_cascade q.2) x ?_
    intro p hp hx
    have hmem := List.mem_of_mem_filter hp
    have hval : ¬(p.2 = q.2) := by
      have := List.of_mem_filter hp
      simpa using this
    have hin := h p hmem hx
    rw [List.map_cons] at hin
    rcases List.mem_cons.mp hin with hcase | hcase
    · exact absurd hcase hval
    · exact hcase

theorem deleteFold_mappings_keep (stale : List (String × String)) :
    ∀ (s : Store) (x : String),
    (∀ p ∈ s.rekordbox_mappings, p.1 = x → p.2 ∉ stale.map Prod.snd) →
    aget x (deleteFold stale s).rekordbox_mappings = aget x s.rekordbox_mappings := by
  induction stale with
  | nil =>
    intro s x _
    rfl
  | cons q rest ih =>
    intro s x h
    have hstep : aget x (s.delete_track_cascade q.2).rekordbox_mappings =
        aget x s.rekordbox_mappings := by
      refine aget_filter_of_keep x _ _ ?_
      intro p hp hx
      have := h p hp hx
      simp only [List.map_cons, List.mem_cons, not_or] at this
      simpa using this.1
    have hrest := ih (s.delete_track_cascade q.2) x (by
      intro p hp hx
      have hmem := List.mem_of_mem_filter hp
      have := h p hmem hx
      simp only [List.map_cons, List.mem_cons, not_or] at this
      exact this.2)
    rw [deleteFold, List.foldl_cons]
    rw [deleteFold] at hrest
    rw [hrest, hstep]

/-- sync_rekordbox_tracks unfolded into its loop and deletion passes. -/
theorem sync_rekordbox_tracks_eq (s : Store) (ts : List RekordboxTrack) :
    s.sync_rekordbox_tracks ts =
      { deleteFold (rekordboxSyncLoop s.now s s.rekordbox_mappings s.rekordbox_mappings ts).2
          (rekordboxSyncLoop s.now s s.rekordbox_mappings s.rekordbox_mappings ts).1
        with now := s.now + 1 } := rfl

theorem rekordboxSyncLoop_mappings_eq (now : Nat) (ts : List RekordboxTrack) :
    ∀ (s : Store) (em sm : List (String × String)), CanonMap em →
    (∀ t ∈ ts, aget t.rekordbox_id s.rekordbox_mappings =
      some ("rekordbox:" ++ t.rekordbox_id)) →
    (rekordboxSyncLoop now s em sm ts).1.rekordbox_mappings = s.rekordbox_mappings := by
  induction ts with
  | nil =>
    intro s em sm _ _
    rfl
  | cons t rest ih =>
    intro s em sm hem hmapped
    rw [rekordboxSyncLoop]
    have htid := canonMap_trackId em t hem
    have hem2 : CanonMap (aupsert t.rekordbox_id
        (fun _ => rekordboxTrackId em t) em) := by
      rw [htid]
      exact canonMap_aupsert em t.rekordbox_id hem
    have hstep : (rekordboxApplyTrack now t (rekordboxTrackId em t) s).rekordbox_mappings =
        s.rekordbox_mappings := by
      rw [rekordboxApplyTrack_mappings, htid]
      exact aupsert_eq_self t.rekordbox_id _ s.rekordbox_mappings _
        (hmapped t (List.mem_cons_self _ _)) rfl
    rw [ih _ _ _ hem2 ?_, hstep]
    intro u hu
    rw [hstep]
    exact hmapped u (List.mem_cons_of_mem _ hu)

theorem rekordboxSyncLoop_tracks_keys (now : Nat) (ts : List RekordboxTrack) :
    ∀ (s : Store) (em sm : List (String × String)), CanonMap em →
    (∀ t ∈ ts, (aget ("rekordbox:" ++ t.rekordbox_id) s.tracks).isSome = true) →
    (rekordboxSyncLoop now s em sm ts).1.tracks.map Prod.fst = s.tracks.map Prod.fst := by
  induction ts with
  | nil =>
    intro s em sm _ _
    rfl
  | cons t rest ih =>
    intro s em sm hem hpresent
    rw [rekordboxSyncLoop]
    have htid := canonMap_trackId em t hem
    have hem2 : CanonMap (aupsert t.rekordbox_id
        (fun _ => rekordboxTrackId em t) em) := by
      rw [htid]
      exact canonMap_aupsert em t.rekordbox_id hem
    have hstep : (rekordboxApplyTrack now t (rekordboxTrackId em t) s).tracks.map Prod.fst =
        s.tracks.map Prod.fst := by
      rw [rekordboxApplyTrack_tracks, aupsert_map_fst]
      rw [htid]
      rw [if_pos (hpresent t (List.mem_cons_self _ _))]
    rw [ih _ _ _ hem2 ?_, hstep]
    intro u hu
    rw [rekordboxApplyTrack_tracks]
    exact aupsert_isSome_mono _ _ _ _ (hpresent u (List.mem_cons_of_mem _ hu))

theorem canonMap_nil : CanonMap [] := by
  intro p hp
  simp at hp

/-- Projection lemmas for sync_rekordbox_tracks (the final clock bump does
not touch any table). -/
theorem sync_proj_mappings (s : Store) (ts : List RekordboxTrack) :
    (s.sync_rekordbox_tracks ts).rekordbox_mappings =
      (deleteFold (rekordboxSyncLoop s.now s s.rekordbox_mappings s.rekordbox_mappings ts).2
        (rekordboxSyncLoop s.now s s.rekordbox_mappings s.rekordbox_mappings ts).1).rekordbox_mappings := rfl

theorem sync_proj_tracks (s : Store) (ts : List RekordboxTrack) :
    (s.sync_rekordbox_tracks ts).tracks =
      (deleteFold (rekordboxSyncLoop s.now s s.rekordbox_mappings s.rekordbox_mappings ts).2
        (rekordboxSyncLoop s.now s s.rekordbox_mappings s.rekordbox_mappings ts).1).tracks := rfl

theorem sync_proj_local_assets (s : Store) (ts : List RekordboxTrack) :
    (s.sync_rekordbox_tracks ts).local_assets =
      (deleteFold (rekordboxSyncLoop s.now s s.rekordbox_mappings s.rekordbox_mappings ts).2
        (rekordboxSyncLoop s.now s s.rekordbox_mappings s.rekordbox_mappings ts).1).local_assets := rfl

theorem sync_proj_rekordbox_sources (s : Store) (ts : List RekordboxTrack) :
    (s.sync_rekordbox_tracks ts).rekordbox_sources =
      (deleteFold (rekordboxSyncLoop s.now s s.rekordbox_mappings s.rekordbox_mappings ts).2
        (rekordboxSyncLoop s.now s s.rekordbox_mappings s.rekordbox_mappings ts).1).rekordbox_sources := rfl

theorem sync_proj_soundcloud_sources (s : Store) (ts : List RekordboxTrack) :
    (s.sync_rekordbox_tracks ts).soundcloud_sources =
      (deleteFold (rekordboxSyncLoop s.now s s.rekordbox_mappings s.rekordbox_mappings ts).2
        (rekordboxSyncLoop s.now s s.rekordbox_mappings s.rekordbox_mappings ts).1).soundcloud_sources := rfl

theorem sync_proj_discogs_matches (s : Store) (ts : List RekordboxTrack) :
    (s.sync_rekordbox_tracks ts).discogs_matches =
      (deleteFold (rekordboxSyncLoop s.now s s.rekordbox_mappings s.rekordbox_mappings ts).2
        (rekordboxSyncLoop s.now s s.rekordbox_mappings s.rekordbox_mappings ts).1).discogs_matches := rfl

theorem sync_proj_musicbrainz_matches (s : Store) (ts : List RekordboxTrack) :
    (s.sync_rekordbox_tracks ts).musicbrainz_matches =
      (deleteFold (rekordboxSyncLoop s.now s s.rekordbox_mappings s.rekordbox_mappings ts).2
        (rekordboxSyncLoop s.now s s.rekordbox_mappings s.rekordbox_mappings ts).1).musicbrainz_matches := rfl

theorem sync_proj_discogs_candidates (s : Store) (ts : List RekordboxTrack) :
    (s.sync_rekordbox_tracks ts).discogs_candidates =
      (deleteFold (rekordboxSyncLoop s.now s s.rekordbox_mappings s.rekordbox_mappings ts).2
        (rekordboxSyncLoop s.now s s.rekordbox_mappings s.rekordbox_mappings ts).1).discogs_candidates := rfl

theorem sync_proj_musicbrainz_candidates (s : Store) (ts : List RekordboxTrack) :
    (s.sync_rekordbox_tracks ts).musicbrainz_candidates =
      (deleteFold (rekordboxSyncLoop s.now s s.rekordbox_mappings s.rekordbox_mappings ts).2
        (rekordboxSyncLoop s.now s s.rekordbox_mappings s.rekordbox_mappings ts).1).musicbrainz_candidates := rfl

/-- After a sync from a store with no rekordbox mappings, the mapping
table holds exactly the canonical entry for every imported external id,
is canonical, and every imported track id has a tracks row. -/
theorem sync_from_empty_mappings (s0 : Store) (ts : List RekordboxTrack)
    (hm0 : s0.rekordbox_mappings = []) :
    (∀ x, aget x (s0.sync_rekordbox_tracks ts).rekordbox_mappings =
      if x ∈ rbIds ts then some ("rekordbox:" ++ x) else none) ∧
    CanonMap (s0.sync_rekordbox_tracks ts).rekordbox_mappings ∧
    (∀ x ∈ rbIds ts,
      (aget ("rekordbox:" ++ x) (s0.sync_rekordbox_tracks ts).tracks).isSome = true) := by
  have hstale : (rekordboxSyncLoop s0.now s0 s0.rekordbox_mappings
      s0.rekordbox_mappings ts).2 = [] := by
    rw [rekordboxSyncLoop_stale, hm0]
    rfl
  have hcanon0 : CanonMap s0.rekordbox_mappings := by
    rw [hm0]
    exact canonMap_nil
  refine ⟨?_, ?_, ?_⟩
  · intro x
    rw [sync_proj_mappings, hstale, deleteFold_nil]
    rw [rekordboxSyncLoop_mappings s0.now ts s0 _ _ hcanon0 x]
    rw [hm0]
    rfl
  · rw [sync_proj_mappings, hstale, deleteFold_nil]
    exact rekordboxSyncLoop_canon s0.now ts s0 _ _ hcanon0 hcanon0
  · intro x hx
    rw [sync_proj_tracks, hstale, deleteFold_nil]
    exact rekordboxSyncLoop_tracks_present s0.now ts s0 _ _ hcanon0 x hx

theorem sync_from_empty_keys (s0 : Store) (ts : List RekordboxTrack)
    (hm0 : s0.rekordbox_mappings = []) :
    ∀ p ∈ (s0.sync_rekordbox_tracks ts).rekordbox_mappings, p.1 ∈ rbIds ts := by
  intro p hp
  have hsome : (aget p.1 (s0.sync_rekordbox_tracks ts).rekordbox_mappings).isSome = true :=
    mem_aget_isSome p.1 p.2 _ (by simpa using hp)
  by_contra hnot
  rw [(sync_from_empty_mappings s0 ts hm0).1 p.1, if_neg hnot] at hsome
  simp at hsome

/-- The effect of a second import on a store whose mapping table is the
canonical one produced by a first import over the id set ts1ids. -/
theorem sync_second_import (s1 : Store) (ts1ids : List String) (ts2 : List RekordboxTrack)
    (hchar : ∀ x, aget x s1.rekordbox_mappings =
      if x ∈ ts1ids then some ("rekordbox:" ++ x) else none)
    (hcanon : CanonMap s1.rekordbox_mappings)
    (hkeys : ∀ p ∈ s1.rekordbox_mappings, p.1 ∈ ts1ids) :
    (∀ x, x ∈ ts1ids → x ∈ rbIds ts2 →
      aget x (s1.sync_rekordbox_tracks ts2).rekordbox_mappings =
        aget x s1.rekordbox_mappings ∧
      (aget ("rekordbox:" ++ x) (s1.sync_rekordbox_tracks ts2).tracks).isSome = true) ∧
    (∀ x, x ∈ ts1ids → x ∉ rbIds ts2 →
      aget ("rekordbox:" ++ x) (s1.sync_rekordbox_tracks ts2).tracks = none ∧
      aget x (s1.sync_rekordbox_tracks ts2).rekordbox_mappings = none ∧
      aget ("rekordbox:" ++ x) (s1.sync_rekordbox_tracks ts2).local_assets = none ∧
      aget ("rekordbox:" ++ x) (s1.sync_rekordbox_tracks ts2).rekordbox_sources = none ∧
      aget ("rekordbox:" ++ x) (s1.sync_rekordbox_tracks ts2).soundcloud_sources = none ∧
      aget ("rekordbox:" ++ x) (s1.sync_rekordbox_tracks ts2).discogs_matches = none ∧
      aget ("rekordbox:" ++ x) (s1.sync_rekordbox_tracks ts2).musicbrainz_matches = none ∧
      (s1.sync_rekordbox_tracks ts2).discogsCandidatesFor ("rekordbox:" ++ x) = [] ∧
      (s1.sync_rekordbox_tracks ts2).musicbrainzCandidatesFor ("rekordbox:" ++ x) = []) ∧
    (∀ tid, (aget tid s1.tracks).isSome = true →
      (∀ x, x ∈ ts1ids → x ∉ rbIds ts2 → tid ≠ "rekordbox:" ++ x) →
      (aget tid (s1.sync_rekordbox_tracks ts2).tracks).isSome = true) := by
  have hstale2 :
      (rekordboxSyncLoop s1.now s1 s1.rekordbox_mappings s1.rekordbox_mappings ts2).2 =
        s1.rekordbox_mappings.filter (fun p => decide (p.1 ∉ rbIds ts2)) :=
    rekordboxSyncLoop_stale s1.now ts2 s1 s1.rekordbox_mappings s1.rekordbox_mappings
  have hcanonL : CanonMap
      (rekordboxSyncLoop s1.now s1 s1.rekordbox_mappings
        s1.rekordbox_mappings ts2).1.rekordbox_mappings :=
    rekordboxSyncLoop_canon s1.now ts2 s1 _ _ hcanon hcanon
  have hvals : ∀ w ∈ (rekordboxSyncLoop s1.now s1 s1.rekordbox_mappings
        s1.rekordbox_mappings ts2).2.map Prod.snd,
      ∃ y, y ∈ ts1ids ∧ y ∉ rbIds ts2 ∧ w = "rekordbox:" ++ y := by
    intro w hw
    rw [hstale2] at hw
    rcases List.mem_map.mp hw with ⟨p, hp, rfl⟩
    have hmem := (List.mem_filter.mp hp).1
    have hnot : p.1 ∉ rbIds ts2 := of_decide_eq_true (List.mem_filter.mp hp).2
    exact ⟨p.1, hkeys p hmem, hnot, hcanon p hmem⟩
  have hkept : ∀ x, x ∈ rbIds ts2 →
      ("rekordbox:" ++ x) ∉ (rekordboxSyncLoop s1.now s1 s1.rekordbox_mappings
        s1.rekordbox_mappings ts2).2.map Prod.snd := by
    intro x hx2 hmem
    rcases hvals _ hmem with ⟨y, _, hy2, heq⟩
    exact hy2 ((string_prefix_inj _ _ _ heq) ▸ hx2)
  refine ⟨?_, ?_, ?_⟩
  · intro x hx1 hx2
    constructor
    · rw [sync_proj_mappings s1 ts2]
      rw [deleteFold_mappings_keep _ _ x (fun p hp hpx => by
        rw [hcanonL p hp, hpx]
        exact hkept x hx2)]
      rw [rekordboxSyncLoop_mappings s1.now ts2 s1 _ _ hcanon x, if_pos hx2]
      rw [hchar x, if_pos hx1]
    · rw [sync_proj_tracks s1 ts2]
      rw [deleteFold_tracks_keep _ _ _ (hkept x hx2)]
      exact rekordboxSyncLoop_tracks_present s1.now ts2 s1 _ _ hcanon x hx2
  · intro x hx1 hx2
    have hmm : aget x s1.rekordbox_mappings = some ("rekordbox:" ++ x) := by
      rw [hchar x, if_pos hx1]
    have hmemstale : (x, "rekordbox:" ++ x) ∈
        (rekordboxSyncLoop s1.now s1 s1.rekordbox_mappings
          s1.rekordbox_mappings ts2).2 := by
      rw [hstale2]
      exact List.mem_filter.mpr ⟨aget_some_mem _ _ _ hmm, decide_eq_true hx2⟩
    have hval : ("rekordbox:" ++ x) ∈
        (rekordboxSyncLoop s1.now s1 s1.rekordbox_mappings
          s1.rekordbox_mappings ts2).2.map Prod.snd :=
      List.mem_map.mpr ⟨_, hmemstale, rfl⟩
    obtain ⟨d1, d2, d3, d4, d5, d6, d7, d8⟩ :=
      deleteFold_deleted _ _ ("rekordbox:" ++ x) hval
    refine ⟨?_, ?_, ?_, ?_, ?_, ?_, ?_, ?_, ?_⟩
    · rw [sync_proj_tracks s1 ts2]
      exact d1
    · rw [sync_proj_mappings s1 ts2]
      exact deleteFold_mappings_cleared _ _ x (fun p hp hpx => by
        rw [hcanonL p hp, hpx]
        exact hval)
    · rw [sync_proj_local_assets s1 ts2]
      exact d2
    · rw [sync_proj_rekordbox_sources s1 ts2]
      exact d3
    · rw [sync_proj_soundcloud_sources s1 ts2]
      exact d4
    · rw [sync_proj_discogs_matches s1 ts2]
      exact d5
    · rw [sync_proj_musicbrainz_matches s1 ts2]
      exact d6
    · show (s1.sync_rekordbox_tracks ts2).discogs_candidates.filter _ = []
      rw [sync_proj_discogs_candidates s1 ts2]
      exact d7
    · show (s1.sync_rekordbox_tracks ts2).musicbrainz_candidates.filter _ = []
      rw [sync_proj_musicbrainz_candidates s1 ts2]
      exact d8
  · intro tid hsome hne
    have hnotv : tid ∉ (rekordboxSyncLoop s1.now s1 s1.rekordbox_mappings
        s1.rekordbox_mappings ts2).2.map Prod.snd := by
      intro hmem
      rcases hvals tid hmem with ⟨y, hy1, hy2, heq⟩
      exact hne y hy1 hy2 heq
    rw [sync_proj_tracks s1 ts2, deleteFold_tracks_keep _ _ _ hnotv]
    exact rekordboxSyncLoop_tracks_mono s1.now ts2 s1 _ _ tid hsome

/-- C6: across two consecutive imports starting from a store with no
rekordbox mappings, the second sync (a) keeps, for every external id
present in both imports, the exact mapping (hence the same track id) the
first import assigned and a live tracks row; (b) deletes the Track of
every external id present only in the first import, cascading to its
mapping, local asset, rekordbox and soundcloud source rows, both catalog
match rows and both candidate sets; and (c) deletes nothing else: every
track row alive after the first import whose id is not the synthetic id
of a dropped external id is still present. -/
theorem claim_C6_stale_removal (s0 : Store) (ts1 ts2 : List RekordboxTrack)
    (hm0 : s0.rekordbox_mappings = []) :
    (∀ x, x ∈ rbIds ts1 → x ∈ rbIds ts2 →
      aget x ((s0.sync_rekordbox_tracks ts1).sync_rekordbox_tracks ts2).rekordbox_mappings =
        aget x (s0.sync_rekordbox_tracks ts1).rekordbox_mappings ∧
      (aget ("rekordbox:" ++ x)
        ((s0.sync_rekordbox_tracks ts1).sync_rekordbox_tracks ts2).tracks).isSome = true) ∧
    (∀ x, x ∈ rbIds ts1 → x ∉ rbIds ts2 →
      aget ("rekordbox:" ++ x)
        ((s0.sync_rekordbox_tracks ts1).sync_rekordbox_tracks ts2).tracks = none ∧
      aget x ((s0.sync_rekordbox_tracks ts1).sync_rekordbox_tracks ts2).rekordbox_mappings =
        none ∧
      aget ("rekordbox:" ++ x)
        ((s0.sync_rekordbox_tracks ts1).sync_rekordbox_tracks ts2).local_assets = none ∧
      aget ("rekordbox:" ++ x)
        ((s0.sync_rekordbox_tracks ts1).sync_rekordbox_tracks ts2).rekordbox_sources = none ∧
      aget ("rekordbox:" ++ x)
        ((s0.sync_rekordbox_tracks ts1).sync_rekordbox_tracks ts2).soundcloud_sources = none ∧
      aget ("rekordbox:" ++ x)
        ((s0.sync_rekordbox_tracks ts1).sync_rekordbox_tracks ts2).discogs_matches = none ∧
      aget ("rekordbox:" ++ x)
        ((s0.sync_rekordbox_tracks ts1).sync_rekordbox_tracks ts2).musicbrainz_matches = none ∧
      ((s0.sync_rekordbox_tracks ts1).sync_rekordbox_tracks ts2).discogsCandidatesFor
        ("rekordbox:" ++ x) = [] ∧
      ((s0.sync_rekordbox_tracks ts1).sync_rekordbox_tracks ts2).musicbrainzCandidatesFor
        ("rekordbox:" ++ x) = []) ∧
    (∀ tid, (aget tid (s0.sync_rekordbox_tracks ts1).tracks).isSome = true →
      (∀ x, x ∈ rbIds ts1 → x ∉ rbIds ts2 → tid ≠ "rekordbox:" ++ x) →
      (aget tid ((s0.sync_rekordbox_tracks ts1).sync_rekordbox_tracks ts2).tracks).isSome =
        true) := by
  obtain ⟨h1char, h1canon, _⟩ := sync_from_empty_mappings s0 ts1 hm0
  exact sync_second_import (s0.sync_rekordbox_tracks ts1) (rbIds ts1) ts2 h1char h1canon
    (sync_from_empty_keys s0 ts1 hm0)

/-- A rekordbox track carrying only its external id. -/
def rbT (i : String) : RekordboxTrack := { rekordbox_id := i }

/-- C6 witness: importing the A B C set then the A C set deletes the
Track of B. -/
theorem claim_C6_witness :
    aget ("rekordbox:" ++ "B")
      ((emptyStore.sync_rekordbox_tracks [rbT "A", rbT "B", rbT "C"]).sync_rekordbox_tracks
        [rbT "A", rbT "C"]).tracks = none :=
  ((claim_C6_stale_removal emptyStore [rbT "A", rbT "B", rbT "C"] [rbT "A", rbT "C"]
    rfl).2.1 "B" (by decide) (by decide)).1

/-- C7: upserting the same record twice leaves exactly one tracks row for
that id, carrying the latest record values (only the legacy
discogs_payload column and created_at survive from prior state); and
running the library sync twice with the same track list leaves the
mapping table identical and the set of track row keys unchanged (no
duplicate Track rows). -/
theorem claim_C7_idempotence (s : Store) (record : TrackRecord) (s0 : Store)
    (ts : List RekordboxTrack) (hnodup : (s.tracks.map Prod.fst).Nodup)
    (hm0 : s0.rekordbox_mappings = []) :
    ((((s.upsert_track record).upsert_track record).tracks.map Prod.fst).count
      record.track_id = 1) ∧
    (aget record.track_id ((s.upsert_track record).upsert_track record).tracks =
      some { title := record.title, artist := record.artist, album := record.album,
             discogs_payload :=
               ((aget record.track_id s.tracks).map (fun r => r.discogs_payload)).getD none,
             discogs_release_id := record.discogs_release_id,
             discogs_confidence := record.discogs_confidence,
             musicbrainz_payload := record.musicbrainz_payload,
             musicbrainz_release_id := record.musicbrainz_release_id,
             musicbrainz_confidence := record.musicbrainz_confidence,
             created_at := ((aget record.track_id s.tracks).map (fun r => r.created_at)).getD
               s.now,
             updated_at := s.now + 1 }) ∧
    (((s0.sync_rekordbox_tracks ts).sync_rekordbox_tracks ts).rekordbox_mappings =
      (s0.sync_rekordbox_tracks ts).rekordbox_mappings) ∧
    (((s0.sync_rekordbox_tracks ts).sync_rekordbox_tracks ts).tracks.map Prod.fst =
      (s0.sync_rekordbox_tracks ts).tracks.map Prod.fst) := by
  obtain ⟨h1char, h1canon, h1present⟩ := sync_from_empty_mappings s0 ts hm0
  have h1keys := sync_from_empty_keys s0 ts hm0
  have hmapped : ∀ t ∈ ts,
      aget t.rekordbox_id (s0.sync_rekordbox_tracks ts).rekordbox_mappings =
        some ("rekordbox:" ++ t.rekordbox_id) := by
    intro t ht
    have hm : t.rekordbox_id ∈ rbIds ts := List.mem_map_of_mem _ ht
    rw [h1char, if_pos hm]
  have hstale : (rekordboxSyncLoop (s0.sync_rekordbox_tracks ts).now
      (s0.sync_rekordbox_tracks ts) (s0.sync_rekordbox_tracks ts).rekordbox_mappings
      (s0.sync_rekordbox_tracks ts).rekordbox_mappings ts).2 = [] := by
    rw [rekordboxSyncLoop_stale, List.filter_eq_nil_iff]
    intro p hp
    simp [h1keys p hp]
  have hsome2 : (aget record.track_id (s.upsert_track record).tracks).isSome = true := by
    show (aget record.track_id (aupsert record.track_id _ s.tracks)).isSome = true
    rw [aget_aupsert_self]
    rfl
  refine ⟨?_, ?_, ?_, ?_⟩
  · have hk2 : ((s.upsert_track record).upsert_track record).tracks.map Prod.fst =
        (s.upsert_track record).tracks.map Prod.fst := by
      show (aupsert record.track_id _ (s.upsert_track record).tracks).map Prod.fst = _
      rw [aupsert_map_fst, if_pos hsome2]
    have hk1 : (s.upsert_track record).tracks.map Prod.fst =
        if (aget record.track_id s.tracks).isSome then s.tracks.map Prod.fst
        else s.tracks.map Prod.fst ++ [record.track_id] := by
      show (aupsert record.track_id _ s.tracks).map Prod.fst = _
      exact aupsert_map_fst _ _ _
    rw [hk2, hk1]
    by_cases hs : (aget record.track_id s.tracks).isSome = true
    · rw [if_pos hs]
      exact List.count_eq_one_of_mem hnodup ((aget_isSome_iff _ _).mp hs)
    · rw [if_neg hs, List.count_append]
      have h0 : (s.tracks.map Prod.fst).count record.track_id = 0 :=
        List.count_eq_zero_of_not_mem (fun hmem => hs ((aget_isSome_iff _ _).mpr hmem))
      rw [h0]
      simp
  · simp only [Store.upsert_track, aget_aupsert_self, Option.map_some, Option.getD_some]
    rfl
  · rw [sync_proj_mappings (s0.sync_rekordbox_tracks ts) ts, hstale, deleteFold_nil]
    exact rekordboxSyncLoop_mappings_eq _ ts _ _ _ h1canon hmapped
  · rw [sync_proj_tracks (s0.sync_rekordbox_tracks ts) ts, hstale, deleteFold_nil]
    refine rekordboxSyncLoop_tracks_keys _ ts _ _ _ h1canon ?_
    intro t ht
    exact h1present t.rekordbox_id (List.mem_map_of_mem _ ht)

/-- C7 witness: upserting a fresh record twice into the empty store. -/
theorem claim_C7_witness :
    (((emptyStore.upsert_track { track_id := "t" }).upsert_track
      { track_id := "t" }).tracks.map Prod.fst).count "t" = 1 :=
  (claim_C7_idempotence emptyStore { track_id := "t" } emptyStore []
    (by simp [emptyStore]) rfl).1

end SoundcloudWrapper
